import Mathlib

/-!
Verification of the simple-jwt-refresh token manager.

The development shallowly embeds the two source modules:
  * `utils.ts` (the token codec): `decodeJWT`, `getTokenExpiration`,
    `createJWTToken`, `isTokenExpired`, `isValidJWTFormat`;
  * `jwt-manager.ts` (the `JWTManager` class): token state, coalesced
    refresh, proactive-refresh timer, and the authenticated `request`
    orchestration.

JavaScript strings are modelled by `String` and `String.split('.')` by an
executable character-level splitter with the same semantics for a
single-character separator.  JS numbers that hold epoch timestamps are
modelled by `Int`.  The base64url/JSON decoding step of `decodeJWT`
(`atob` + `JSON.parse`) is abstracted as a parameter, since only the
split/validation structure around it lives in this repository's code.

The asynchronous manager is modelled as an explicit state machine whose
atomic steps correspond to the run-to-completion segments between `await`
suspension points of the single-threaded JS event loop.
-/

namespace JWTRefresh

/-- `JWTToken` from `types.ts`: the token string and its expiration in
epoch milliseconds. -/
structure JWTToken where
  token : String
  expiresAt : Int
deriving Repr, DecidableEq

/-- The decoded JWT claims payload, as consumed by `getTokenExpiration`:
only the `exp` claim (an epoch-seconds number, or absent) is ever read.
`none` models an absent (`undefined`) claim. -/
structure JWTPayload where
  exp : Option Int
deriving Repr, DecidableEq

/-- Character-level model of JavaScript `s.split(sep)` for a one-character
separator: accumulates the current segment (reversed) and emits it at each
separator.  `"".split('.') = [""]`, `"a..b".split('.') = ["a","","b"]`,
exactly as in JS. -/
def splitCharAux (sep : Char) : List Char → List Char → List (List Char)
  | [], acc => [acc.reverse]
  | c :: rest, acc =>
      if c = sep then acc.reverse :: splitCharAux sep rest []
      else splitCharAux sep rest (c :: acc)

/-- `token.split('.')` from the source, as a `String`-level operation. -/
def jsSplitDot (s : String) : List String :=
  (splitCharAux '.' s.data []).map (fun l => String.mk l)

/-- The two regex replaces of `decodeJWT` (every dash becomes a plus and
every underscore becomes a slash), character by character. -/
def base64urlNormalize (s : String) : String :=
  String.mk (s.data.map (fun c => if c = '-' then '+' else if c = '_' then '/' else c))

/-- `decodeJWT` from `utils.ts`: split on `'.'`, require exactly three
segments, then decode the middle segment.  The `atob` + `JSON.parse` step
is the abstract parameter `parsePayload` (`none` models it throwing); its
failure is reported as `"Failed to decode JWT token"`, per the catch
clause. -/
def decodeJWT (parsePayload : String → Option JWTPayload) (token : String) :
    Except String JWTPayload :=
  let parts := jsSplitDot token
  if parts.length ≠ 3 then
    Except.error "Invalid JWT token format"
  else
    match parsePayload (base64urlNormalize (parts.getD 1 "")) with
    | some p => Except.ok p
    | none => Except.error "Failed to decode JWT token"

/-- JS truthiness of `payload.exp` as tested by `if (!payload.exp)`:
an absent claim (`undefined`) and the number `0` are falsy. -/
def expTruthy (p : JWTPayload) : Bool :=
  match p.exp with
  | none => false
  | some e => e != 0

/-- `getTokenExpiration` from `utils.ts`: decode, test `!payload.exp`,
and convert seconds to milliseconds. -/
def getTokenExpiration (parsePayload : String → Option JWTPayload)
    (token : String) : Except String Int :=
  match decodeJWT parsePayload token with
  | Except.error e => Except.error e
  | Except.ok payload =>
      if expTruthy payload then
        Except.ok (payload.exp.getD 0 * 1000)
      else
        Except.error "Token does not contain expiration time"

/-- `createJWTToken` from `utils.ts`: pair the token string with its
extracted expiration (propagating decode failures). -/
def createJWTToken (parsePayload : String → Option JWTPayload)
    (token : String) : Except String JWTToken :=
  match getTokenExpiration parsePayload token with
  | Except.ok expiresAt => Except.ok { token := token, expiresAt := expiresAt }
  | Except.error e => Except.error e

/-- `isTokenExpired` from `utils.ts`: `now >= token.expiresAt - bufferMs`,
with the wall clock made explicit. -/
def isTokenExpired (now : Int) (token : JWTToken) (bufferMs : Int) : Bool :=
  decide (token.expiresAt - bufferMs ≤ now)

/-- `isValidJWTFormat` from `utils.ts` on an actual string: the `!token`
guard rejects the empty string, then the split must give exactly three
segments of positive length. -/
def isValidJWTFormat (token : String) : Bool :=
  if token = "" then false
  else
    let parts := jsSplitDot token
    parts.length = 3 && parts.all (fun part => part.length > 0)

/-- `isValidJWTFormat` including the dynamic `typeof token !== 'string'`
guard: `none` models a `null`/`undefined` argument. -/
def isValidJWTFormatJS (token : Option String) : Bool :=
  match token with
  | none => false
  | some t => isValidJWTFormat t

/-! ## JavaScript object-literal header merging

Request headers are JS objects built with spread syntax; a later entry for
the same key overwrites an earlier one.  They are modelled as association
lists with unique keys, with `objSet` as key update and `objSpread` as the
spread of a whole list of entries over a base object. -/

/-- Set key `k` to `v` in a JS object: overwrite in place if present,
append otherwise. -/
def objSet (m : List (String × String)) (k v : String) : List (String × String) :=
  if m.any (fun p => p.1 = k) then
    m.map (fun p => if p.1 = k then (k, v) else p)
  else m ++ [(k, v)]

/-- Spread the entries of `extra` over `base`, later entries winning
(JS `\x7b ...base, ...extra \x7d`). -/
def objSpread (base extra : List (String × String)) : List (String × String) :=
  extra.foldl (fun acc p => objSet acc p.1 p.2) base

/-- Property lookup in a JS object. -/
def objGet (m : List (String × String)) (k : String) : Option String :=
  (m.find? (fun p => p.1 = k)).map (fun p => p.2)

/-! ## The JWTManager model

`jwt-manager.ts` is embedded as an explicit state machine.  A system
state `Sys` holds the three mutable fields of the class
(`accessToken`, `refreshPromise`, `refreshTimeoutId`), the wall clock,
and environment bookkeeping: live (armed, uncancelled) `setTimeout`
timers, pending refresh network calls with their awaiting callers, the
log of outgoing fetches, the callback invocations, and the outcomes
delivered to awaiting callers.

`refreshAccessToken` is split at its single `await` suspension point
into `refreshStart` (the synchronous part up to and including initiating
the refresh fetch) and `refreshComplete` (the continuation that runs when
that fetch settles).  Both correspond line by line to the source. -/

/-- Outcome of the refresh-endpoint fetch as seen by
`performTokenRefresh` after its `await`: the promise rejected, or it
resolved to a response with `ok`, `status`, and (after `json()` and
`extractAccessToken`) an extracted token, where `none` models a falsy
extraction result. -/
inductive FetchOutcome where
  | rejected
  | resolved (ok : Bool) (status : Nat) (extracted : Option JWTToken)
deriving Repr, DecidableEq

/-- The cause recorded inside the `TokenRefreshError` that
`performTokenRefresh` throws. -/
inductive RefreshFailure where
  | network
  | httpStatus (status : Nat)
  | invalidToken
deriving Repr, DecidableEq

/-- Settlement of the refresh promise: the new token, or the
`TokenRefreshError` it rejects with. -/
inductive RefreshResult where
  | success (tok : JWTToken)
  | failure (e : RefreshFailure)
deriving Repr, DecidableEq

/-- A configured callback firing (or the `console.warn` of the scheduled
refresh path). -/
inductive Event where
  | authFailure
  | tokenRefreshed (tok : JWTToken)
  | refreshErrored (e : RefreshFailure)
  | warnScheduledRefreshFailed
deriving Repr, DecidableEq

/-- A caller awaiting the pending refresh promise; `fromTimer` marks the
scheduled-refresh path, which attaches a `catch`. -/
structure Waiter where
  caller : Nat
  fromTimer : Bool
deriving Repr, DecidableEq

/-- One outgoing `fetch` call: URL, method, headers, and whether
`credentials: include` was passed. -/
structure FetchCall where
  url : String
  method : String
  headers : List (String × String)
  credentialsInclude : Bool
deriving Repr, DecidableEq

/-- The three private fields of the `JWTManager` instance. -/
structure ManagerState where
  accessToken : Option JWTToken
  refreshPromise : Option Nat
  refreshTimeoutId : Option Nat
deriving Repr, DecidableEq

/-- The manager state plus its environment: wall clock, fresh-id counter
(for timer handles and promise identities), live timers, pending refresh
fetches with their waiters, fetch log, callback events, and results
delivered to awaiting callers. -/
structure Sys where
  mgr : ManagerState
  now : Int
  nextId : Nat
  armedTimers : List Nat
  inflight : List (Nat × List Waiter)
  refreshNetworkCalls : Nat
  fetchLog : List FetchCall
  events : List Event
  results : List (Nat × Nat × RefreshResult)
deriving Repr, DecidableEq

/-- The configuration fields the model consumes: `refreshConfig.url`,
`refreshConfig.method` (defaulted to POST), `refreshConfig.headers`, and
`refreshBuffer`.  Callbacks are recorded as `Event`s. -/
structure Config where
  refreshUrl : String
  refreshMethod : Option String
  refreshHeaders : List (String × String)
  refreshBuffer : Int
deriving Repr, DecidableEq

/-- Append a callback invocation to the event log. -/
def pushEvent (e : Event) (s : Sys) : Sys :=
  { s with events := s.events ++ [e] }

/-- `clearRefreshTimeout`: if a timeout id is stored, `clearTimeout` it
(the timer can no longer fire) and null the field. -/
def clearRefreshTimeout (s : Sys) : Sys :=
  match s.mgr.refreshTimeoutId with
  | none => s
  | some id =>
      { s with
        mgr := { s.mgr with refreshTimeoutId := none },
        armedTimers := s.armedTimers.erase id }

/-- `scheduleTokenRefresh`: always clear the previous timeout; with no
token do nothing more; otherwise arm a one-shot timer iff
`expiresAt - now - refreshBuffer` is strictly positive. -/
def scheduleTokenRefresh (cfg : Config) (s : Sys) : Sys :=
  let s1 := clearRefreshTimeout s
  match s1.mgr.accessToken with
  | none => s1
  | some tok =>
      let timeUntilRefresh := tok.expiresAt - s1.now - cfg.refreshBuffer
      if 0 < timeUntilRefresh then
        { s1 with
          mgr := { s1.mgr with refreshTimeoutId := some s1.nextId },
          armedTimers := s1.nextId :: s1.armedTimers,
          nextId := s1.nextId + 1 }
      else s1

/-- The branch of `setAccessToken` taking an already-built `JWTToken`
object: store it as-is (no validation) and re-schedule. -/
def setAccessTokenTok (cfg : Config) (tok : JWTToken) (s : Sys) : Sys :=
  scheduleTokenRefresh cfg { s with mgr := { s.mgr with accessToken := some tok } }

/-- The branch of `setAccessToken` taking a string: validate the format
(throwing on failure), build the token via `createJWTToken` (propagating
its failure), then store and re-schedule. -/
def setAccessTokenStr (cfg : Config) (parsePayload : String → Option JWTPayload)
    (str : String) (s : Sys) : Except String Sys :=
  if isValidJWTFormat str = false then
    Except.error "Invalid JWT token format"
  else
    match createJWTToken parsePayload str with
    | Except.error e => Except.error e
    | Except.ok tok => Except.ok (setAccessTokenTok cfg tok s)

/-- `clearAccessToken`: cancel the timer, then null the token. -/
def clearAccessToken (s : Sys) : Sys :=
  let s1 := clearRefreshTimeout s
  { s1 with mgr := { s1.mgr with accessToken := none } }

/-- `destroy`: cancel the timer, null the token and the pending-refresh
slot.  Nothing else: no flag stops an in-flight refresh continuation. -/
def destroy (s : Sys) : Sys :=
  let s1 := clearRefreshTimeout s
  { s1 with mgr := { s1.mgr with accessToken := none, refreshPromise := none } }

/-- The fetch issued by `performTokenRefresh`: configured URL, method
defaulted to POST, a `Content-Type: application/json` header overridable
by the configured headers, ambient credentials included. -/
def refreshFetchCall (cfg : Config) : FetchCall :=
  { url := cfg.refreshUrl,
    method := cfg.refreshMethod.getD "POST",
    headers := objSpread [("Content-Type", "application/json")] cfg.refreshHeaders,
    credentialsInclude := true }

/-- `refreshAccessToken` up to its suspension point: if a refresh promise
is already pending, the caller simply awaits it (no new network call);
otherwise a new promise is created, the refresh fetch is initiated, and
the promise is stored in the slot. -/
def refreshStart (cfg : Config) (caller : Nat) (fromTimer : Bool) (s : Sys) : Sys :=
  match s.mgr.refreshPromise with
  | some pid =>
      { s with inflight :=
          s.inflight.map (fun e => if e.1 = pid then (e.1, e.2 ++ [⟨caller, fromTimer⟩]) else e) }
  | none =>
      let pid := s.nextId
      { s with
        mgr := { s.mgr with refreshPromise := some pid },
        nextId := pid + 1,
        inflight := s.inflight ++ [(pid, [⟨caller, fromTimer⟩])],
        refreshNetworkCalls := s.refreshNetworkCalls + 1,
        fetchLog := s.fetchLog ++ [refreshFetchCall cfg] }

/-- The value `performTokenRefresh` settles with, as a function of the
fetch outcome alone: a rejected fetch or a non-ok status throws (wrapped
as a `TokenRefreshError`); an ok response throws unless the extracted
token is truthy and passes `isValidJWTFormat`. -/
def refreshOutcomeResult (o : FetchOutcome) : RefreshResult :=
  match o with
  | FetchOutcome.rejected => RefreshResult.failure RefreshFailure.network
  | FetchOutcome.resolved ok status extracted =>
      if ok = false then RefreshResult.failure (RefreshFailure.httpStatus status)
      else
        match extracted with
        | none => RefreshResult.failure RefreshFailure.invalidToken
        | some tok =>
            if isValidJWTFormat tok.token then RefreshResult.success tok
            else RefreshResult.failure RefreshFailure.invalidToken

/-- Whether the refresh fetch resolved non-ok with an auth status, the
condition under which `performTokenRefresh` clears the token and fires
the auth-failure callback before throwing. -/
def isAuthStatusFailure (o : FetchOutcome) : Bool :=
  match o with
  | FetchOutcome.resolved ok status _ => !ok && (status = 401 || status = 403)
  | FetchOutcome.rejected => false

/-- The continuation of `performTokenRefresh` after its fetch settles:
on a non-ok 401/403 response clear the token and invoke the auth-failure
callback; the settlement value is `refreshOutcomeResult o`. -/
def performTokenRefreshResult (o : FetchOutcome) (s : Sys) : Sys × RefreshResult :=
  let s1 :=
    if isAuthStatusFailure o then pushEvent Event.authFailure (clearAccessToken s)
    else s
  (s1, refreshOutcomeResult o)

/-- Settle the promise for one waiter: the scheduled-refresh path
(`fromTimer`) attached a `catch` that logs a warning and propagates
nothing; every other caller receives the outcome. -/
def deliverOne (pid : Nat) (r : RefreshResult) (s : Sys) (w : Waiter) : Sys :=
  if w.fromTimer then
    match r with
    | RefreshResult.success _ => s
    | RefreshResult.failure _ => pushEvent Event.warnScheduledRefreshFailed s
  else
    { s with results := s.results ++ [(w.caller, pid, r)] }

/-- Settle the promise for all recorded waiters, in subscription order. -/
def deliverAll (pid : Nat) (r : RefreshResult) (ws : List Waiter) (s : Sys) : Sys :=
  ws.foldl (deliverOne pid r) s

/-- The body of the async IIFE in `refreshAccessToken` after
`performTokenRefresh` settles: on success `setAccessToken` the new token
and fire the refresh callback, on failure fire the error callback; the
`finally` clause nulls the pending-refresh slot unconditionally; then the
waiters of promise `pid` resume. -/
def refreshFinish (cfg : Config) (pid : Nat) (o : FetchOutcome)
    (ws : List Waiter) (s : Sys) : Sys × RefreshResult :=
  let pr := performTokenRefreshResult o s
  let r := pr.2
  let s1 :=
    match r with
    | RefreshResult.success tok =>
        pushEvent (Event.tokenRefreshed tok) (setAccessTokenTok cfg tok pr.1)
    | RefreshResult.failure e => pushEvent (Event.refreshErrored e) pr.1
  let s2 := { s1 with mgr := { s1.mgr with refreshPromise := none } }
  (deliverAll pid r ws s2, r)

/-- Association-list lookup of a pending fetch. -/
def findInflight (pid : Nat) : List (Nat × List Waiter) → Option (List Waiter)
  | [] => none
  | e :: rest => if e.1 = pid then some e.2 else findInflight pid rest

/-- Run the continuation of pending refresh `pid` on fetch outcome `o`. -/
def refreshComplete (cfg : Config) (pid : Nat) (o : FetchOutcome) (s : Sys) : Sys :=
  match findInflight pid s.inflight with
  | none => s
  | some ws =>
      (refreshFinish cfg pid o ws
        { s with inflight := s.inflight.filter (fun e => e.1 ≠ pid) }).1

/-- An atomic step of the event loop: a caller invoking a public method,
a pending refresh fetch settling, a live timer firing, or time passing. -/
inductive Action where
  | callRefresh (caller : Nat)
  | fetchResolve (pid : Nat) (o : FetchOutcome)
  | timerFire (id : Nat)
  | callDestroy
  | callClear
  | setTokenObj (tok : JWTToken)
  | setTokenStr (str : String)
  | advance (d : Nat)
deriving Repr, DecidableEq

/-- The step function.  `none` means the event cannot occur: a cancelled
or never-armed timer cannot fire, and a fetch that is not pending cannot
settle.  A `setAccessToken` call that throws leaves the state unchanged
(the exception propagates to the caller before any field is written). -/
def step (cfg : Config) (parsePayload : String → Option JWTPayload)
    (s : Sys) (a : Action) : Option Sys :=
  match a with
  | Action.callRefresh c => some (refreshStart cfg c false s)
  | Action.fetchResolve pid o =>
      match findInflight pid s.inflight with
      | some _ => some (refreshComplete cfg pid o s)
      | none => none
  | Action.timerFire id =>
      if id ∈ s.armedTimers then
        some (refreshStart cfg 0 true { s with armedTimers := s.armedTimers.erase id })
      else none
  | Action.callDestroy => some (destroy s)
  | Action.callClear => some (clearAccessToken s)
  | Action.setTokenObj tok => some (setAccessTokenTok cfg tok s)
  | Action.setTokenStr str =>
      match setAccessTokenStr cfg parsePayload str s with
      | Except.ok s2 => some s2
      | Except.error _ => some s
  | Action.advance d => some { s with now := s.now + d }

/-- The state of a freshly constructed manager. -/
def initSys (startNow : Int) : Sys :=
  { mgr := { accessToken := none, refreshPromise := none, refreshTimeoutId := none },
    now := startNow, nextId := 1, armedTimers := [], inflight := [],
    refreshNetworkCalls := 0, fetchLog := [], events := [], results := [] }

/-! ## Sequential executions of getAccessToken and request

`request` and `getAccessToken` are async methods; a single call with no
interleaved foreign events is their sequential execution, with the
outcome of each fetch they may perform supplied as an oracle argument
(unused oracles are ignored).  `doRefreshSeq` is
`await this.refreshAccessToken()` run to completion: start (or join) the
refresh, then run its continuation on the given fetch outcome. -/

/-- Await a full refresh: `refreshStart` immediately followed by the
continuation on outcome `o`, returning the settled value the awaiting
caller observes. -/
def doRefreshSeq (cfg : Config) (caller : Nat) (o : FetchOutcome) (s : Sys) :
    Sys × RefreshResult :=
  let pid :=
    match s.mgr.refreshPromise with
    | some p => p
    | none => s.nextId
  let s1 := refreshStart cfg caller false s
  match findInflight pid s1.inflight with
  | some ws =>
      refreshFinish cfg pid o ws { s1 with inflight := s1.inflight.filter (fun e => e.1 ≠ pid) }
  | none => (s1, RefreshResult.failure RefreshFailure.network)

/-- Result of `getAccessToken`: a token string, or the thrown
`NoValidTokenError` with its message. -/
inductive GetTokenResult where
  | token (t : String)
  | noValid (msg : String)
deriving Repr, DecidableEq

/-- `getAccessToken`, sequentially: refresh if the token is absent, or if
it is expired under the configured buffer; otherwise return the current
token string.  A failed refresh becomes a `NoValidTokenError`. -/
def getAccessTokenSeq (cfg : Config) (caller : Nat) (o : FetchOutcome) (s : Sys) :
    Sys × GetTokenResult :=
  match s.mgr.accessToken with
  | none =>
      let d := doRefreshSeq cfg caller o s
      match d.2 with
      | RefreshResult.success tok => (d.1, GetTokenResult.token tok.token)
      | RefreshResult.failure _ =>
          (d.1, GetTokenResult.noValid "No access token available and refresh failed")
  | some tok =>
      if isTokenExpired s.now tok cfg.refreshBuffer then
        let d := doRefreshSeq cfg caller o s
        match d.2 with
        | RefreshResult.success t2 => (d.1, GetTokenResult.token t2.token)
        | RefreshResult.failure _ =>
            (d.1, GetTokenResult.noValid "Access token expired and refresh failed")
      else (s, GetTokenResult.token tok.token)

/-- A `RequestConfig` as consumed by `request`: URL, optional method
(defaulted to GET), and caller-supplied headers. -/
structure Req where
  url : String
  method : Option String
  headers : List (String × String)
deriving Repr, DecidableEq

/-- A response to a non-refresh fetch, with its body already
materialized (the JSON/text branch both yield the `data` field). -/
structure HttpResp where
  status : Nat
  ok : Bool
  data : String
  headers : List (String × String)
deriving Repr, DecidableEq

/-- A non-refresh fetch either rejects or resolves to a response. -/
inductive FetchReply where
  | reject
  | reply (r : HttpResp)
deriving Repr, DecidableEq

/-- The `AuthenticatedResponse` value `request` resolves with. -/
structure AuthResponse where
  data : String
  status : Nat
  headers : List (String × String)
  ok : Bool
deriving Repr, DecidableEq

/-- How a `request` call ends: resolved response, `NoValidTokenError`
(with message), or the generic wrapped failure. -/
inductive RequestOutcome where
  | success (r : AuthResponse)
  | noValidToken (msg : String)
  | requestFailed
deriving Repr, DecidableEq

/-- The header object `request` builds for the original call:
the bearer `Authorization` entry first, then the caller's headers spread
over it (so a caller entry for the same key overwrites it). -/
def requestHeaders (accessToken : String) (callerHeaders : List (String × String)) :
    List (String × String) :=
  objSpread [("Authorization", "Bearer " ++ accessToken)] callerHeaders

/-- An outgoing non-refresh fetch issued by `request`, with ambient
credentials included. -/
def requestFetchCall (req : Req) (hdrs : List (String × String)) : FetchCall :=
  { url := req.url,
    method := req.method.getD "GET",
    headers := hdrs,
    credentialsInclude := true }

/-- `request`, sequentially.  Oracles: `oGet` answers a refresh triggered
inside `getAccessToken`, `r1` the original fetch, `oRefresh` the refresh
triggered by a 401, `r2` the retried fetch.  On a 401 the inner `try`
covers the refresh, the retried fetch, and its body materialization: any
failure there clears the token, fires the auth-failure callback, and
throws `NoValidTokenError`, which the outer catch re-throws unchanged;
any other rejection is wrapped as a generic request failure. -/
def requestSeq (cfg : Config) (caller : Nat) (req : Req)
    (oGet : FetchOutcome) (r1 : FetchReply) (oRefresh : FetchOutcome) (r2 : FetchReply)
    (s : Sys) : Sys × RequestOutcome :=
  let g := getAccessTokenSeq cfg caller oGet s
  match g.2 with
  | GetTokenResult.noValid msg => (g.1, RequestOutcome.noValidToken msg)
  | GetTokenResult.token accessToken =>
      let headers := requestHeaders accessToken req.headers
      let s1 := { g.1 with fetchLog := g.1.fetchLog ++ [requestFetchCall req headers] }
      match r1 with
      | FetchReply.reject => (s1, RequestOutcome.requestFailed)
      | FetchReply.reply resp =>
          if resp.status = 401 then
            let d := doRefreshSeq cfg caller oRefresh s1
            match d.2 with
            | RefreshResult.failure _ =>
                (pushEvent Event.authFailure (clearAccessToken d.1),
                 RequestOutcome.noValidToken "Authentication required")
            | RefreshResult.success newTok =>
                let retryHeaders :=
                  objSpread headers [("Authorization", "Bearer " ++ newTok.token)]
                let s2 := { d.1 with
                  fetchLog := d.1.fetchLog ++ [requestFetchCall req retryHeaders] }
                match r2 with
                | FetchReply.reject =>
                    (pushEvent Event.authFailure (clearAccessToken s2),
                     RequestOutcome.noValidToken "Authentication required")
                | FetchReply.reply rresp =>
                    (s2, RequestOutcome.success
                      { data := rresp.data, status := rresp.status,
                        headers := rresp.headers, ok := rresp.ok })
          else
            (s1, RequestOutcome.success
              { data := resp.data, status := resp.status,
                headers := resp.headers, ok := resp.ok })

/-! ## Properties of the character-level split -/

/-- The split never returns an empty list of segments. -/
theorem splitCharAux_ne_nil (sep : Char) (l : List Char) :
    ∀ acc, splitCharAux sep l acc ≠ [] := by
  induction l with
  | nil => intro acc; simp [splitCharAux]
  | cons c rest ih =>
      intro acc
      by_cases h : c = sep
      · simp [splitCharAux, h]
      · simpa [splitCharAux, h] using ih (c :: acc)

/-- Joining segments with the separator, the left inverse of the split. -/
def joinSep (sep : Char) : List (List Char) → List Char
  | [] => []
  | [p] => p
  | p :: q :: rest => p ++ sep :: joinSep sep (q :: rest)

/-- Joining the split of `l` (with pending accumulator `acc`) recovers
`acc.reverse ++ l`. -/
theorem joinSep_splitCharAux (sep : Char) (l : List Char) :
    ∀ acc, joinSep sep (splitCharAux sep l acc) = acc.reverse ++ l := by
  induction l with
  | nil => intro acc; simp [splitCharAux, joinSep]
  | cons c rest ih =>
      intro acc
      by_cases h : c = sep
      · subst h
        obtain ⟨p, ps, hps⟩ := List.exists_cons_of_ne_nil (splitCharAux_ne_nil c rest [])
        simp only [splitCharAux, if_pos rfl, hps, joinSep]
        rw [← hps, ih []]
        simp
      · simp only [splitCharAux, if_neg h]
        rw [ih (c :: acc)]
        simp

/-- No segment produced by the split contains the separator, provided the
accumulator does not. -/
theorem splitCharAux_no_sep (sep : Char) (l : List Char) :
    ∀ acc, (∀ c ∈ acc, c ≠ sep) → ∀ p ∈ splitCharAux sep l acc, sep ∉ p := by
  induction l with
  | nil =>
      intro acc hacc p hp
      rw [splitCharAux, List.mem_singleton] at hp
      subst hp
      intro hsep
      exact hacc sep (List.mem_reverse.mp hsep) rfl
  | cons c rest ih =>
      intro acc hacc p hp
      rw [splitCharAux] at hp
      by_cases h : c = sep
      · rw [if_pos h] at hp
        rcases List.mem_cons.mp hp with hp1 | hp1
        · subst hp1
          intro hsep
          exact hacc sep (List.mem_reverse.mp hsep) rfl
        · exact ih [] (by simp) p hp1
      · rw [if_neg h] at hp
        refine ih (c :: acc) ?_ p hp
        intro x hx
        rcases List.mem_cons.mp hx with hx1 | hx1
        · subst hx1; exact h
        · exact hacc x hx1

/-- Splitting `a ++ sep :: rest` with a separator-free `a` emits
`acc.reverse ++ a` and continues on `rest`. -/
theorem splitCharAux_append_sep (sep : Char) (rest : List Char) :
    ∀ (a acc : List Char), sep ∉ a →
      splitCharAux sep (a ++ sep :: rest) acc =
        (acc.reverse ++ a) :: splitCharAux sep rest [] := by
  intro a
  induction a with
  | nil => intro acc _; simp [splitCharAux]
  | cons c a ih =>
      intro acc ha
      have hc : c ≠ sep := fun h => ha (h ▸ List.mem_cons_self c a)
      have ha2 : sep ∉ a := fun h => ha (List.mem_cons_of_mem c h)
      simp only [List.cons_append, splitCharAux, if_neg hc, List.append_eq]
      rw [ih (c :: acc) ha2]
      simp

/-- Splitting a separator-free list yields the single segment
`acc.reverse ++ a`. -/
theorem splitCharAux_no_sep_eq (sep : Char) :
    ∀ (a acc : List Char), sep ∉ a → splitCharAux sep a acc = [acc.reverse ++ a] := by
  intro a
  induction a with
  | nil => intro acc _; simp [splitCharAux]
  | cons c a ih =>
      intro acc ha
      have hc : c ≠ sep := fun h => ha (h ▸ List.mem_cons_self c a)
      have ha2 : sep ∉ a := fun h => ha (List.mem_cons_of_mem c h)
      simp only [splitCharAux, if_neg hc]
      rw [ih (c :: acc) ha2]
      simp

/-- C8: for every string (and for null-like inputs), `isValidJWTFormat`
returns `true` exactly when the string splits on `'.'` into exactly three
non-empty segments — equivalently, when it is of the shape
`a ++ "." ++ b ++ "." ++ c` with `a`, `b`, `c` non-empty and dot-free;
it returns `false` on the empty string and on null, and, being a total
function, never throws. -/
theorem C8_isValidFormat_iff :
    (∀ t : String, isValidJWTFormat t = true ↔
      ∃ a b c : List Char, t.data = a ++ '.' :: (b ++ '.' :: c) ∧
        a ≠ [] ∧ b ≠ [] ∧ c ≠ [] ∧ '.' ∉ a ∧ '.' ∉ b ∧ '.' ∉ c)
    ∧ isValidJWTFormatJS none = false
    ∧ isValidJWTFormat "" = false := by
  refine ⟨?_, rfl, rfl⟩
  intro t
  constructor
  · intro hv
    unfold isValidJWTFormat at hv
    by_cases hemp : t = ""
    · simp [hemp] at hv
    · rw [if_neg hemp] at hv
      simp only [Bool.and_eq_true, decide_eq_true_eq, List.all_eq_true] at hv
      obtain ⟨hlen, hall⟩ := hv
      have hlen3 : (splitCharAux '.' t.data []).length = 3 := by
        simpa [jsSplitDot] using hlen
      obtain ⟨x, y, z, hxyz⟩ := List.length_eq_three.mp hlen3
      refine ⟨x, y, z, ?_, ?_, ?_, ?_, ?_, ?_, ?_⟩
      · have hj := joinSep_splitCharAux '.' t.data []
        rw [hxyz] at hj
        simpa [joinSep] using hj.symm
      · have := hall (String.mk x) (by simp [jsSplitDot, hxyz])
        simp only [decide_eq_true_eq] at this
        intro hx
        rw [hx] at this
        simp [String.length] at this
      · have := hall (String.mk y) (by simp [jsSplitDot, hxyz])
        simp only [decide_eq_true_eq] at this
        intro hy
        rw [hy] at this
        simp [String.length] at this
      · have := hall (String.mk z) (by simp [jsSplitDot, hxyz])
        simp only [decide_eq_true_eq] at this
        intro hz
        rw [hz] at this
        simp [String.length] at this
      · exact splitCharAux_no_sep '.' t.data [] (by simp) x (by simp [hxyz])
      · exact splitCharAux_no_sep '.' t.data [] (by simp) y (by simp [hxyz])
      · exact splitCharAux_no_sep '.' t.data [] (by simp) z (by simp [hxyz])
  · rintro ⟨a, b, c, hdata, ha, hb, hc, hna, hnb, hnc⟩
    have hemp : t ≠ "" := by
      intro h
      rw [h] at hdata
      simp at hdata
    have hsplit : splitCharAux '.' t.data [] = [a, b, c] := by
      rw [hdata, splitCharAux_append_sep '.' _ a [] hna,
        splitCharAux_append_sep '.' _ b [] hnb, splitCharAux_no_sep_eq '.' c [] hnc]
      simp
    unfold isValidJWTFormat
    rw [if_neg hemp]
    simp only [Bool.and_eq_true, decide_eq_true_eq, List.all_eq_true]
    constructor
    · simp [jsSplitDot, hsplit]
    · intro p hp
      simp only [jsSplitDot, hsplit, List.map_cons, List.map_nil, List.mem_cons,
        List.not_mem_nil, or_false] at hp
      rcases hp with hp1 | hp1 | hp1
      all_goals subst hp1
      · simpa [decide_eq_true_eq] using List.length_pos.mpr ha
      · simpa [decide_eq_true_eq] using List.length_pos.mpr hb
      · simpa [decide_eq_true_eq] using List.length_pos.mpr hc

/-- C7: for every token whose payload decodes to a claims map carrying a
valid (truthy) expiration claim `E` in epoch-seconds, `createJWTToken`
yields `expiresAt = E * 1000`, and `isTokenExpired` of that token with
buffer `0` is true exactly when the wall clock has reached `E * 1000`;
when the claim is absent, `createJWTToken` fails with the
missing-expiration error. -/
theorem C7_buildToken_expiresAt (parsePayload : String → Option JWTPayload) :
    (∀ (t : String) (p : JWTPayload) (E : Int),
      decodeJWT parsePayload t = Except.ok p → p.exp = some E → E ≠ 0 →
        createJWTToken parsePayload t =
          Except.ok { token := t, expiresAt := E * 1000 } ∧
        ∀ now : Int,
          (isTokenExpired now { token := t, expiresAt := E * 1000 } 0 = true ↔
            E * 1000 ≤ now))
    ∧ (∀ (t : String) (p : JWTPayload),
      decodeJWT parsePayload t = Except.ok p → p.exp = none →
        createJWTToken parsePayload t =
          Except.error "Token does not contain expiration time") := by
  constructor
  · intro t p E hd hexp hE
    have htr : expTruthy p = true := by
      simp [expTruthy, hexp, hE]
    constructor
    · simp [createJWTToken, getTokenExpiration, hd, htr, hexp]
    · intro now
      simp [isTokenExpired]
  · intro t p hd hexp
    have htr : expTruthy p = false := by
      simp [expTruthy, hexp]
    simp [createJWTToken, getTokenExpiration, hd, htr]

/-- Witness for C7 at a concrete decode function and token string. -/
theorem C7_buildToken_expiresAt_witness :
    decodeJWT (fun _ => some { exp := some 100 }) "a.b.c" =
        Except.ok { exp := some 100 } ∧
    (100 : Int) ≠ 0 ∧
    (createJWTToken (fun _ => some { exp := some 100 }) "a.b.c" =
        Except.ok { token := "a.b.c", expiresAt := 100 * 1000 } ∧
      ∀ now : Int,
        (isTokenExpired now { token := "a.b.c", expiresAt := 100 * 1000 } 0 = true ↔
          (100 : Int) * 1000 ≤ now)) :=
  ⟨rfl, by decide,
    (C7_buildToken_expiresAt (fun _ => some { exp := some 100 })).1
      "a.b.c" { exp := some 100 } 100 rfl rfl (by decide)⟩

/-- C10: when the decoded claims map carries `exp` equal to `0`, the
truthiness test `!payload.exp` treats it as missing, so
`getTokenExpiration` (and hence `createJWTToken`) fails with
`"Token does not contain expiration time"`. -/
theorem C10_zero_exp_treated_missing (parsePayload : String → Option JWTPayload) :
    ∀ (t : String) (p : JWTPayload),
      decodeJWT parsePayload t = Except.ok p → p.exp = some 0 →
        getTokenExpiration parsePayload t =
          Except.error "Token does not contain expiration time" ∧
        createJWTToken parsePayload t =
          Except.error "Token does not contain expiration time" := by
  intro t p hd hexp
  have htr : expTruthy p = false := by
    simp [expTruthy, hexp]
  constructor
  · simp [getTokenExpiration, hd, htr]
  · simp [createJWTToken, getTokenExpiration, hd, htr]

/-- Witness for C10 at a concrete decode function and token string. -/
theorem C10_zero_exp_treated_missing_witness :
    decodeJWT (fun _ => some { exp := some 0 }) "a.b.c" =
        Except.ok { exp := some 0 } ∧
    (getTokenExpiration (fun _ => some { exp := some 0 }) "a.b.c" =
        Except.error "Token does not contain expiration time" ∧
      createJWTToken (fun _ => some { exp := some 0 }) "a.b.c" =
        Except.error "Token does not contain expiration time") :=
  ⟨rfl,
    C10_zero_exp_treated_missing (fun _ => some { exp := some 0 })
      "a.b.c" { exp := some 0 } rfl rfl⟩

/-! ## Component lemmas for the manager model -/

@[simp] theorem pushEvent_mgr (e : Event) (s : Sys) : (pushEvent e s).mgr = s.mgr := rfl

@[simp] theorem pushEvent_now (e : Event) (s : Sys) : (pushEvent e s).now = s.now := rfl

@[simp] theorem pushEvent_nextId (e : Event) (s : Sys) : (pushEvent e s).nextId = s.nextId := rfl

@[simp] theorem pushEvent_armedTimers (e : Event) (s : Sys) :
    (pushEvent e s).armedTimers = s.armedTimers := rfl

@[simp] theorem pushEvent_inflight (e : Event) (s : Sys) :
    (pushEvent e s).inflight = s.inflight := rfl

@[simp] theorem pushEvent_refreshNetworkCalls (e : Event) (s : Sys) :
    (pushEvent e s).refreshNetworkCalls = s.refreshNetworkCalls := rfl

@[simp] theorem pushEvent_fetchLog (e : Event) (s : Sys) :
    (pushEvent e s).fetchLog = s.fetchLog := rfl

@[simp] theorem pushEvent_results (e : Event) (s : Sys) : (pushEvent e s).results = s.results := rfl

@[simp] theorem pushEvent_events (e : Event) (s : Sys) :
    (pushEvent e s).events = s.events ++ [e] := rfl

@[simp] theorem clearRefreshTimeout_accessToken (s : Sys) :
    (clearRefreshTimeout s).mgr.accessToken = s.mgr.accessToken := by
  unfold clearRefreshTimeout; cases h : s.mgr.refreshTimeoutId <;> rfl

@[simp] theorem clearRefreshTimeout_refreshPromise (s : Sys) :
    (clearRefreshTimeout s).mgr.refreshPromise = s.mgr.refreshPromise := by
  unfold clearRefreshTimeout; cases h : s.mgr.refreshTimeoutId <;> rfl

@[simp] theorem clearRefreshTimeout_refreshTimeoutId (s : Sys) :
    (clearRefreshTimeout s).mgr.refreshTimeoutId = none := by
  unfold clearRefreshTimeout; cases h : s.mgr.refreshTimeoutId <;> simp [h]

@[simp] theorem clearRefreshTimeout_now (s : Sys) : (clearRefreshTimeout s).now = s.now := by
  unfold clearRefreshTimeout; cases h : s.mgr.refreshTimeoutId <;> rfl

@[simp] theorem clearRefreshTimeout_nextId (s : Sys) : (clearRefreshTimeout s).nextId = s.nextId := by
  unfold clearRefreshTimeout; cases h : s.mgr.refreshTimeoutId <;> rfl

@[simp] theorem clearRefreshTimeout_inflight (s : Sys) :
    (clearRefreshTimeout s).inflight = s.inflight := by
  unfold clearRefreshTimeout; cases h : s.mgr.refreshTimeoutId <;> rfl

@[simp] theorem clearRefreshTimeout_refreshNetworkCalls (s : Sys) :
    (clearRefreshTimeout s).refreshNetworkCalls = s.refreshNetworkCalls := by
  unfold clearRefreshTimeout; cases h : s.mgr.refreshTimeoutId <;> rfl

@[simp] theorem clearRefreshTimeout_fetchLog (s : Sys) :
    (clearRefreshTimeout s).fetchLog = s.fetchLog := by
  unfold clearRefreshTimeout; cases h : s.mgr.refreshTimeoutId <;> rfl

@[simp] theorem clearRefreshTimeout_events (s : Sys) :
    (clearRefreshTimeout s).events = s.events := by
  unfold clearRefreshTimeout; cases h : s.mgr.refreshTimeoutId <;> rfl

@[simp] theorem clearRefreshTimeout_results (s : Sys) :
    (clearRefreshTimeout s).results = s.results := by
  unfold clearRefreshTimeout; cases h : s.mgr.refreshTimeoutId <;> rfl

theorem clearRefreshTimeout_armedTimers (s : Sys) :
    (clearRefreshTimeout s).armedTimers =
      match s.mgr.refreshTimeoutId with
      | none => s.armedTimers
      | some id => s.armedTimers.erase id := by
  unfold clearRefreshTimeout; cases h : s.mgr.refreshTimeoutId <;> simp [h]

@[simp] theorem scheduleTokenRefresh_accessToken (cfg : Config) (s : Sys) :
    (scheduleTokenRefresh cfg s).mgr.accessToken = s.mgr.accessToken := by
  unfold scheduleTokenRefresh
  cases h : s.mgr.accessToken <;> simp [h]
  split <;> simp [h]

@[simp] theorem scheduleTokenRefresh_refreshPromise (cfg : Config) (s : Sys) :
    (scheduleTokenRefresh cfg s).mgr.refreshPromise = s.mgr.refreshPromise := by
  unfold scheduleTokenRefresh
  cases h : s.mgr.accessToken <;> simp [h]
  split <;> simp

@[simp] theorem scheduleTokenRefresh_now (cfg : Config) (s : Sys) :
    (scheduleTokenRefresh cfg s).now = s.now := by
  unfold scheduleTokenRefresh
  cases h : s.mgr.accessToken <;> simp [h]
  split <;> simp

@[simp] theorem scheduleTokenRefresh_inflight (cfg : Config) (s : Sys) :
    (scheduleTokenRefresh cfg s).inflight = s.inflight := by
  unfold scheduleTokenRefresh
  cases h : s.mgr.accessToken <;> simp [h]
  split <;> simp

@[simp] theorem scheduleTokenRefresh_refreshNetworkCalls (cfg : Config) (s : Sys) :
    (scheduleTokenRefresh cfg s).refreshNetworkCalls = s.refreshNetworkCalls := by
  unfold scheduleTokenRefresh
  cases h : s.mgr.accessToken <;> simp [h]
  split <;> simp

@[simp] theorem scheduleTokenRefresh_fetchLog (cfg : Config) (s : Sys) :
    (scheduleTokenRefresh cfg s).fetchLog = s.fetchLog := by
  unfold scheduleTokenRefresh
  cases h : s.mgr.accessToken <;> simp [h]
  split <;> simp

@[simp] theorem scheduleTokenRefresh_events (cfg : Config) (s : Sys) :
    (scheduleTokenRefresh cfg s).events = s.events := by
  unfold scheduleTokenRefresh
  cases h : s.mgr.accessToken <;> simp [h]
  split <;> simp

@[simp] theorem scheduleTokenRefresh_results (cfg : Config) (s : Sys) :
    (scheduleTokenRefresh cfg s).results = s.results := by
  unfold scheduleTokenRefresh
  cases h : s.mgr.accessToken <;> simp [h]
  split <;> simp

@[simp] theorem setAccessTokenTok_accessToken (cfg : Config) (tok : JWTToken) (s : Sys) :
    (setAccessTokenTok cfg tok s).mgr.accessToken = some tok := by
  unfold setAccessTokenTok; simp

@[simp] theorem setAccessTokenTok_refreshPromise (cfg : Config) (tok : JWTToken) (s : Sys) :
    (setAccessTokenTok cfg tok s).mgr.refreshPromise = s.mgr.refreshPromise := by
  unfold setAccessTokenTok; simp

@[simp] theorem setAccessTokenTok_now (cfg : Config) (tok : JWTToken) (s : Sys) :
    (setAccessTokenTok cfg tok s).now = s.now := by
  unfold setAccessTokenTok; simp

@[simp] theorem setAccessTokenTok_inflight (cfg : Config) (tok : JWTToken) (s : Sys) :
    (setAccessTokenTok cfg tok s).inflight = s.inflight := by
  unfold setAccessTokenTok; simp

@[simp] theorem setAccessTokenTok_refreshNetworkCalls (cfg : Config) (tok : JWTToken) (s : Sys) :
    (setAccessTokenTok cfg tok s).refreshNetworkCalls = s.refreshNetworkCalls := by
  unfold setAccessTokenTok; simp

@[simp] theorem setAccessTokenTok_fetchLog (cfg : Config) (tok : JWTToken) (s : Sys) :
    (setAccessTokenTok cfg tok s).fetchLog = s.fetchLog := by
  unfold setAccessTokenTok; simp

@[simp] theorem setAccessTokenTok_events (cfg : Config) (tok : JWTToken) (s : Sys) :
    (setAccessTokenTok cfg tok s).events = s.events := by
  unfold setAccessTokenTok; simp

@[simp] theorem setAccessTokenTok_results (cfg : Config) (tok : JWTToken) (s : Sys) :
    (setAccessTokenTok cfg tok s).results = s.results := by
  unfold setAccessTokenTok; simp

@[simp] theorem clearAccessToken_accessToken (s : Sys) :
    (clearAccessToken s).mgr.accessToken = none := rfl

@[simp] theorem clearAccessToken_refreshPromise (s : Sys) :
    (clearAccessToken s).mgr.refreshPromise = s.mgr.refreshPromise := by
  unfold clearAccessToken; simp

@[simp] theorem clearAccessToken_refreshTimeoutId (s : Sys) :
    (clearAccessToken s).mgr.refreshTimeoutId = none := by
  unfold clearAccessToken; simp

@[simp] theorem clearAccessToken_now (s : Sys) : (clearAccessToken s).now = s.now := by
  unfold clearAccessToken; simp

@[simp] theorem clearAccessToken_nextId (s : Sys) : (clearAccessToken s).nextId = s.nextId := by
  unfold clearAccessToken; simp

@[simp] theorem clearAccessToken_inflight (s : Sys) :
    (clearAccessToken s).inflight = s.inflight := by
  unfold clearAccessToken; simp

@[simp] theorem clearAccessToken_refreshNetworkCalls (s : Sys) :
    (clearAccessToken s).refreshNetworkCalls = s.refreshNetworkCalls := by
  unfold clearAccessToken; simp

@[simp] theorem clearAccessToken_fetchLog (s : Sys) :
    (clearAccessToken s).fetchLog = s.fetchLog := by
  unfold clearAccessToken; simp

@[simp] theorem clearAccessToken_events (s : Sys) : (clearAccessToken s).events = s.events := by
  unfold clearAccessToken; simp

@[simp] theorem clearAccessToken_results (s : Sys) : (clearAccessToken s).results = s.results := by
  unfold clearAccessToken; simp

@[simp] theorem deliverOne_mgr (pid : Nat) (r : RefreshResult) (s : Sys) (w : Waiter) :
    (deliverOne pid r s w).mgr = s.mgr := by
  unfold deliverOne; cases hw : w.fromTimer <;> cases r <;> simp

@[simp] theorem deliverOne_now (pid : Nat) (r : RefreshResult) (s : Sys) (w : Waiter) :
    (deliverOne pid r s w).now = s.now := by
  unfold deliverOne; cases hw : w.fromTimer <;> cases r <;> simp

@[simp] theorem deliverOne_nextId (pid : Nat) (r : RefreshResult) (s : Sys) (w : Waiter) :
    (deliverOne pid r s w).nextId = s.nextId := by
  unfold deliverOne; cases hw : w.fromTimer <;> cases r <;> simp

@[simp] theorem deliverOne_armedTimers (pid : Nat) (r : RefreshResult) (s : Sys) (w : Waiter) :
    (deliverOne pid r s w).armedTimers = s.armedTimers := by
  unfold deliverOne; cases hw : w.fromTimer <;> cases r <;> simp

@[simp] theorem deliverOne_inflight (pid : Nat) (r : RefreshResult) (s : Sys) (w : Waiter) :
    (deliverOne pid r s w).inflight = s.inflight := by
  unfold deliverOne; cases hw : w.fromTimer <;> cases r <;> simp

@[simp] theorem deliverOne_refreshNetworkCalls (pid : Nat) (r : RefreshResult) (s : Sys)
    (w : Waiter) : (deliverOne pid r s w).refreshNetworkCalls = s.refreshNetworkCalls := by
  unfold deliverOne; cases hw : w.fromTimer <;> cases r <;> simp

@[simp] theorem deliverOne_fetchLog (pid : Nat) (r : RefreshResult) (s : Sys) (w : Waiter) :
    (deliverOne pid r s w).fetchLog = s.fetchLog := by
  unfold deliverOne; cases hw : w.fromTimer <;> cases r <;> simp

theorem deliverAll_cons (pid : Nat) (r : RefreshResult) (w : Waiter) (ws : List Waiter)
    (s : Sys) : deliverAll pid r (w :: ws) s = deliverAll pid r ws (deliverOne pid r s w) := rfl

@[simp] theorem deliverAll_mgr (pid : Nat) (r : RefreshResult) (ws : List Waiter) :
    ∀ s : Sys, (deliverAll pid r ws s).mgr = s.mgr := by
  induction ws with
  | nil => intro s; rfl
  | cons w ws ih => intro s; rw [deliverAll_cons, ih, deliverOne_mgr]

@[simp] theorem deliverAll_now (pid : Nat) (r : RefreshResult) (ws : List Waiter) :
    ∀ s : Sys, (deliverAll pid r ws s).now = s.now := by
  induction ws with
  | nil => intro s; rfl
  | cons w ws ih => intro s; rw [deliverAll_cons, ih, deliverOne_now]

@[simp] theorem deliverAll_nextId (pid : Nat) (r : RefreshResult) (ws : List Waiter) :
    ∀ s : Sys, (deliverAll pid r ws s).nextId = s.nextId := by
  induction ws with
  | nil => intro s; rfl
  | cons w ws ih => intro s; rw [deliverAll_cons, ih, deliverOne_nextId]

@[simp] theorem deliverAll_armedTimers (pid : Nat) (r : RefreshResult) (ws : List Waiter) :
    ∀ s : Sys, (deliverAll pid r ws s).armedTimers = s.armedTimers := by
  induction ws with
  | nil => intro s; rfl
  | cons w ws ih => intro s; rw [deliverAll_cons, ih, deliverOne_armedTimers]

@[simp] theorem deliverAll_inflight (pid : Nat) (r : RefreshResult) (ws : List Waiter) :
    ∀ s : Sys, (deliverAll pid r ws s).inflight = s.inflight := by
  induction ws with
  | nil => intro s; rfl
  | cons w ws ih => intro s; rw [deliverAll_cons, ih, deliverOne_inflight]

@[simp] theorem deliverAll_refreshNetworkCalls (pid : Nat) (r : RefreshResult) (ws : List Waiter) :
    ∀ s : Sys, (deliverAll pid r ws s).refreshNetworkCalls = s.refreshNetworkCalls := by
  induction ws with
  | nil => intro s; rfl
  | cons w ws ih => intro s; rw [deliverAll_cons, ih, deliverOne_refreshNetworkCalls]

@[simp] theorem deliverAll_fetchLog (pid : Nat) (r : RefreshResult) (ws : List Waiter) :
    ∀ s : Sys, (deliverAll pid r ws s).fetchLog = s.fetchLog := by
  induction ws with
  | nil => intro s; rfl
  | cons w ws ih => intro s; rw [deliverAll_cons, ih, deliverOne_fetchLog]

theorem deliverAll_results_mono (pid : Nat) (r : RefreshResult) (ws : List Waiter) :
    ∀ (s : Sys) (x : Nat × Nat × RefreshResult),
      x ∈ s.results → x ∈ (deliverAll pid r ws s).results := by
  induction ws with
  | nil => intro s x hx; exact hx
  | cons w ws ih =>
      intro s x hx
      rw [deliverAll_cons]
      refine ih _ x ?_
      unfold deliverOne
      cases hw : w.fromTimer
      · simp [hw]
        exact Or.inl hx
      · cases r <;> simpa using hx

theorem deliverAll_results_mem (pid : Nat) (r : RefreshResult) (ws : List Waiter) :
    ∀ (s : Sys) (w : Waiter), w ∈ ws → w.fromTimer = false →
      (w.caller, pid, r) ∈ (deliverAll pid r ws s).results := by
  induction ws with
  | nil => intro s w hw; cases hw
  | cons w0 ws ih =>
      intro s w hw hft
      rw [deliverAll_cons]
      rcases List.mem_cons.mp hw with h1 | h1
      · subst h1
        refine deliverAll_results_mono pid r ws _ _ ?_
        unfold deliverOne
        rw [hft]
        simp
      · exact ih _ w h1 hft

/-! ## Starting and finishing a refresh -/

theorem refreshStart_slot_none (cfg : Config) (caller : Nat) (ft : Bool) (s : Sys)
    (h : s.mgr.refreshPromise = none) :
    refreshStart cfg caller ft s =
      { s with
        mgr := { s.mgr with refreshPromise := some s.nextId },
        nextId := s.nextId + 1,
        inflight := s.inflight ++ [(s.nextId, [⟨caller, ft⟩])],
        refreshNetworkCalls := s.refreshNetworkCalls + 1,
        fetchLog := s.fetchLog ++ [refreshFetchCall cfg] } := by
  unfold refreshStart; rw [h]

theorem refreshStart_slot_some (cfg : Config) (caller : Nat) (ft : Bool) (s : Sys) (pid : Nat)
    (h : s.mgr.refreshPromise = some pid) :
    refreshStart cfg caller ft s =
      { s with inflight :=
          s.inflight.map (fun e => if e.1 = pid then (e.1, e.2 ++ [⟨caller, ft⟩]) else e) } := by
  unfold refreshStart; rw [h]

/-- Joining callers while a refresh is pending only appends waiters to the
single pending entry; no state beyond the waiter list changes. -/
theorem refreshStart_join_fold (cfg : Config) (callers : List Nat) :
    ∀ (s : Sys) (pid : Nat) (ws : List Waiter),
      s.mgr.refreshPromise = some pid → s.inflight = [(pid, ws)] →
      callers.foldl (fun t c => refreshStart cfg c false t) s =
        { s with inflight := [(pid, ws ++ callers.map (fun c => ⟨c, false⟩))] } := by
  induction callers with
  | nil =>
      intro s pid ws h1 h2
      simp only [List.foldl_nil, List.map_nil, List.append_nil]
      rw [← h2]
  | cons c cs ih =>
      intro s pid ws h1 h2
      rw [List.foldl_cons, refreshStart_slot_some cfg c false s pid h1, h2]
      have hmap : ([(pid, ws)].map
          (fun e => if e.1 = pid then (e.1, e.2 ++ [(⟨c, false⟩ : Waiter)]) else e)) =
          [(pid, ws ++ [⟨c, false⟩])] := by simp
      rw [hmap, ih { s with inflight := [(pid, ws ++ [⟨c, false⟩])] } pid (ws ++ [⟨c, false⟩]) h1 rfl]
      simp

theorem performTokenRefreshResult_snd (o : FetchOutcome) (s : Sys) :
    (performTokenRefreshResult o s).2 = refreshOutcomeResult o := rfl

@[simp] theorem performTokenRefreshResult_refreshPromise (o : FetchOutcome) (s : Sys) :
    (performTokenRefreshResult o s).1.mgr.refreshPromise = s.mgr.refreshPromise := by
  unfold performTokenRefreshResult
  by_cases h : isAuthStatusFailure o = true <;> simp [h]

@[simp] theorem performTokenRefreshResult_now (o : FetchOutcome) (s : Sys) :
    (performTokenRefreshResult o s).1.now = s.now := by
  unfold performTokenRefreshResult
  by_cases h : isAuthStatusFailure o = true <;> simp [h]

@[simp] theorem performTokenRefreshResult_inflight (o : FetchOutcome) (s : Sys) :
    (performTokenRefreshResult o s).1.inflight = s.inflight := by
  unfold performTokenRefreshResult
  by_cases h : isAuthStatusFailure o = true <;> simp [h]

@[simp] theorem performTokenRefreshResult_refreshNetworkCalls (o : FetchOutcome) (s : Sys) :
    (performTokenRefreshResult o s).1.refreshNetworkCalls = s.refreshNetworkCalls := by
  unfold performTokenRefreshResult
  by_cases h : isAuthStatusFailure o = true <;> simp [h]

@[simp] theorem performTokenRefreshResult_fetchLog (o : FetchOutcome) (s : Sys) :
    (performTokenRefreshResult o s).1.fetchLog = s.fetchLog := by
  unfold performTokenRefreshResult
  by_cases h : isAuthStatusFailure o = true <;> simp [h]

@[simp] theorem performTokenRefreshResult_results (o : FetchOutcome) (s : Sys) :
    (performTokenRefreshResult o s).1.results = s.results := by
  unfold performTokenRefreshResult
  by_cases h : isAuthStatusFailure o = true <;> simp [h]

theorem refreshFinish_snd (cfg : Config) (pid : Nat) (o : FetchOutcome) (ws : List Waiter)
    (s : Sys) : (refreshFinish cfg pid o ws s).2 = refreshOutcomeResult o := rfl

theorem refreshFinish_refreshPromise (cfg : Config) (pid : Nat) (o : FetchOutcome)
    (ws : List Waiter) (s : Sys) :
    (refreshFinish cfg pid o ws s).1.mgr.refreshPromise = none := by
  unfold refreshFinish
  simp only [performTokenRefreshResult_snd]
  cases h : refreshOutcomeResult o <;> simp [h]

theorem refreshFinish_refreshNetworkCalls (cfg : Config) (pid : Nat) (o : FetchOutcome)
    (ws : List Waiter) (s : Sys) :
    (refreshFinish cfg pid o ws s).1.refreshNetworkCalls = s.refreshNetworkCalls := by
  unfold refreshFinish
  simp only [performTokenRefreshResult_snd]
  cases h : refreshOutcomeResult o <;> simp [h]

theorem refreshFinish_inflight (cfg : Config) (pid : Nat) (o : FetchOutcome)
    (ws : List Waiter) (s : Sys) :
    (refreshFinish cfg pid o ws s).1.inflight = s.inflight := by
  unfold refreshFinish
  simp only [performTokenRefreshResult_snd]
  cases h : refreshOutcomeResult o <;> simp [h]

theorem refreshFinish_now (cfg : Config) (pid : Nat) (o : FetchOutcome)
    (ws : List Waiter) (s : Sys) :
    (refreshFinish cfg pid o ws s).1.now = s.now := by
  unfold refreshFinish
  simp only [performTokenRefreshResult_snd]
  cases h : refreshOutcomeResult o <;> simp [h]

theorem refreshFinish_results_mem (cfg : Config) (pid : Nat) (o : FetchOutcome)
    (ws : List Waiter) (s : Sys) (w : Waiter) (hw : w ∈ ws) (hft : w.fromTimer = false) :
    (w.caller, pid, refreshOutcomeResult o) ∈ (refreshFinish cfg pid o ws s).1.results := by
  unfold refreshFinish
  simp only [performTokenRefreshResult_snd]
  exact deliverAll_results_mem pid (refreshOutcomeResult o) ws _ w hw hft

/-- Resolving the only pending fetch runs the refresh continuation. -/
theorem step_fetchResolve_singleton (cfg : Config) (parsePayload : String → Option JWTPayload)
    (s : Sys) (pid : Nat) (W : List Waiter) (o : FetchOutcome)
    (h : s.inflight = [(pid, W)]) :
    step cfg parsePayload s (Action.fetchResolve pid o) =
      some (refreshFinish cfg pid o W { s with inflight := [] }).1 := by
  unfold step refreshComplete
  rw [h]
  simp [findInflight]

/-- C1: concurrent `refreshToken()` calls coalesce.  Starting from a
state with no pending refresh, a first call starts exactly one refresh
fetch; any number of further calls issued while it is outstanding add no
network calls; when the fetch settles, every caller receives the same
outcome (the same token or the same error), the pending-refresh slot is
cleared, and a later call starts a fresh network call. -/
theorem C1_refresh_coalescing (cfg : Config) (parsePayload : String → Option JWTPayload)
    (s0 : Sys) (c0 : Nat) (callers : List Nat) (o : FetchOutcome)
    (hslot : s0.mgr.refreshPromise = none) (hinf : s0.inflight = []) :
    ∃ s3,
      step cfg parsePayload
          (callers.foldl (fun t c => refreshStart cfg c false t) (refreshStart cfg c0 false s0))
          (Action.fetchResolve s0.nextId o) = some s3 ∧
      (callers.foldl (fun t c => refreshStart cfg c false t)
          (refreshStart cfg c0 false s0)).refreshNetworkCalls = s0.refreshNetworkCalls + 1 ∧
      s3.refreshNetworkCalls = s0.refreshNetworkCalls + 1 ∧
      s3.mgr.refreshPromise = none ∧
      (∀ c, (c = c0 ∨ c ∈ callers) →
        (c, s0.nextId, refreshOutcomeResult o) ∈ s3.results) ∧
      (∀ c1, (refreshStart cfg c1 false s3).refreshNetworkCalls =
        s3.refreshNetworkCalls + 1) := by
  have h1 := refreshStart_slot_none cfg c0 false s0 hslot
  have h1slot : (refreshStart cfg c0 false s0).mgr.refreshPromise = some s0.nextId := by
    rw [h1]
  have h1inf : (refreshStart cfg c0 false s0).inflight = [(s0.nextId, [⟨c0, false⟩])] := by
    rw [h1]; simp [hinf]
  have h1rnc : (refreshStart cfg c0 false s0).refreshNetworkCalls =
      s0.refreshNetworkCalls + 1 := by rw [h1]
  have hfold := refreshStart_join_fold cfg callers (refreshStart cfg c0 false s0)
    s0.nextId [⟨c0, false⟩] h1slot h1inf
  have h2inf : (callers.foldl (fun t c => refreshStart cfg c false t)
      (refreshStart cfg c0 false s0)).inflight =
      [(s0.nextId, [⟨c0, false⟩] ++ callers.map (fun c => ⟨c, false⟩))] := by
    rw [hfold]
  have h2rnc : (callers.foldl (fun t c => refreshStart cfg c false t)
      (refreshStart cfg c0 false s0)).refreshNetworkCalls = s0.refreshNetworkCalls + 1 := by
    rw [hfold]
    exact h1rnc
  refine ⟨_, step_fetchResolve_singleton cfg parsePayload _ s0.nextId _ o h2inf,
    h2rnc, ?_, refreshFinish_refreshPromise cfg s0.nextId o _ _, ?_, ?_⟩
  · rw [refreshFinish_refreshNetworkCalls]
    exact h2rnc
  · intro c hc
    have hw : (⟨c, false⟩ : Waiter) ∈ ([⟨c0, false⟩] ++ callers.map (fun x => ⟨x, false⟩)) := by
      rcases hc with rfl | hc
      · exact List.mem_append_left _ (List.mem_singleton.mpr rfl)
      · exact List.mem_append_right _ (List.mem_map_of_mem _ hc)
    exact refreshFinish_results_mem cfg s0.nextId o _ _ ⟨c, false⟩ hw rfl
  · intro c1
    rw [refreshStart_slot_none cfg c1 false _
      (refreshFinish_refreshPromise cfg s0.nextId o _ _)]

/-- A concrete configuration used by witness instantiations. -/
def cfg0 : Config :=
  { refreshUrl := "u", refreshMethod := none, refreshHeaders := [], refreshBuffer := 6000 }

/-- A concrete well-formed token used by witness instantiations. -/
def tok0 : JWTToken := { token := "a.b.c", expiresAt := 1000000 }

/-- Witness for C1: two extra callers join one pending refresh from a
fresh manager state. -/
theorem C1_refresh_coalescing_witness :
    (initSys 0).mgr.refreshPromise = none ∧ (initSys 0).inflight = [] ∧
    ∃ s3,
      step cfg0 (fun _ => none)
          ([2, 3].foldl (fun t c => refreshStart cfg0 c false t)
            (refreshStart cfg0 1 false (initSys 0)))
          (Action.fetchResolve (initSys 0).nextId
            (FetchOutcome.resolved true 200 (some tok0))) = some s3 ∧
      ([2, 3].foldl (fun t c => refreshStart cfg0 c false t)
          (refreshStart cfg0 1 false (initSys 0))).refreshNetworkCalls =
        (initSys 0).refreshNetworkCalls + 1 ∧
      s3.refreshNetworkCalls = (initSys 0).refreshNetworkCalls + 1 ∧
      s3.mgr.refreshPromise = none ∧
      (∀ c, (c = 1 ∨ c ∈ [2, 3]) →
        (c, (initSys 0).nextId,
          refreshOutcomeResult (FetchOutcome.resolved true 200 (some tok0))) ∈ s3.results) ∧
      (∀ c1, (refreshStart cfg0 c1 false s3).refreshNetworkCalls =
        s3.refreshNetworkCalls + 1) :=
  ⟨rfl, rfl,
    C1_refresh_coalescing cfg0 (fun _ => none) (initSys 0) 1 [2, 3]
      (FetchOutcome.resolved true 200 (some tok0)) rfl rfl⟩

/-! ## Lookup after JS object update and spread -/

theorem find_replace_self (m : List (String × String)) (k v : String)
    (h : m.any (fun p => p.1 = k) = true) :
    (m.map (fun p => if p.1 = k then (k, v) else p)).find? (fun p => p.1 = k) = some (k, v) := by
  induction m with
  | nil => simp at h
  | cons p m ih =>
      rw [List.map_cons]
      by_cases hp : p.1 = k
      · rw [if_pos hp, List.find?_cons_of_pos _ (by simp)]
      · have hm : m.any (fun p => p.1 = k) = true := by simpa [hp] using h
        rw [if_neg hp, List.find?_cons_of_neg _ (by simp [hp]), ih hm]

theorem find_append_self (m : List (String × String)) (k v : String)
    (h : m.any (fun p => p.1 = k) = false) :
    (m ++ [(k, v)]).find? (fun p => p.1 = k) = some (k, v) := by
  induction m with
  | nil => rw [List.nil_append, List.find?_cons_of_pos _ (by simp)]
  | cons p m ih =>
      have hp : ¬(p.1 = k) := by
        intro hh
        simp [hh] at h
      have hm : m.any (fun p => p.1 = k) = false := by
        simpa [hp] using h
      rw [List.cons_append, List.find?_cons_of_neg _ (by simp [hp]), ih hm]

theorem find_replace_other (m : List (String × String)) (k k2 v : String) (hne : k2 ≠ k) :
    (m.map (fun p => if p.1 = k2 then (k2, v) else p)).find? (fun p => p.1 = k) =
      m.find? (fun p => p.1 = k) := by
  induction m with
  | nil => rfl
  | cons p m ih =>
      rw [List.map_cons]
      by_cases hp : p.1 = k2
      · rw [if_pos hp, List.find?_cons_of_neg _ (by simp [hne]),
          List.find?_cons_of_neg _ (by simp [hp, hne]), ih]
      · rw [if_neg hp]
        by_cases hpk : p.1 = k
        · rw [List.find?_cons_of_pos _ (by simp [hpk]), List.find?_cons_of_pos _ (by simp [hpk])]
        · rw [List.find?_cons_of_neg _ (by simp [hpk]), List.find?_cons_of_neg _ (by simp [hpk]),
            ih]

theorem find_append_other (m : List (String × String)) (k k2 v : String) (hne : k2 ≠ k) :
    (m ++ [(k2, v)]).find? (fun p => p.1 = k) = m.find? (fun p => p.1 = k) := by
  induction m with
  | nil => rw [List.nil_append, List.find?_cons_of_neg _ (by simp [hne])]
  | cons p m ih =>
      by_cases hpk : p.1 = k
      · rw [List.cons_append, List.find?_cons_of_pos _ (by simp [hpk]),
          List.find?_cons_of_pos _ (by simp [hpk])]
      · rw [List.cons_append, List.find?_cons_of_neg _ (by simp [hpk]),
          List.find?_cons_of_neg _ (by simp [hpk]), ih]

/-- Setting key `k` makes lookup of `k` return the new value. -/
theorem objGet_objSet_self (m : List (String × String)) (k v : String) :
    objGet (objSet m k v) k = some v := by
  unfold objSet objGet
  by_cases h : m.any (fun p => p.1 = k) = true
  · rw [if_pos h, find_replace_self m k v h]
    rfl
  · rw [if_neg h, find_append_self m k v (by revert h; cases m.any (fun p => p.1 = k) <;> simp)]
    rfl

/-- Setting key `k2` leaves lookup of a different key `k` unchanged. -/
theorem objGet_objSet_other (m : List (String × String)) (k k2 v : String) (hne : k2 ≠ k) :
    objGet (objSet m k2 v) k = objGet m k := by
  unfold objSet objGet
  by_cases h : m.any (fun p => p.1 = k2) = true
  · rw [if_pos h, find_replace_other m k k2 v hne]
  · rw [if_neg h, find_append_other m k k2 v hne]

/-- Spreading entries that do not mention key `k` leaves its lookup at the
base value. -/
theorem objGet_objSpread_extra_none (extra : List (String × String)) :
    ∀ (base : List (String × String)) (k : String), objGet extra k = none →
      objGet (objSpread base extra) k = objGet base k := by
  induction extra with
  | nil => intro base k _; rfl
  | cons p extra ih =>
      intro base k hnone
      have hpk : ¬(p.1 = k) := by
        intro hh
        unfold objGet at hnone
        rw [List.find?_cons_of_pos _ (by simp [hh])] at hnone
        simp at hnone
      have htail : objGet extra k = none := by
        unfold objGet at hnone ⊢
        rw [List.find?_cons_of_neg _ (by simp [hpk])] at hnone
        exact hnone
      have hspread : objSpread base (p :: extra) = objSpread (objSet base p.1 p.2) extra := rfl
      rw [hspread, ih (objSet base p.1 p.2) k htail, objGet_objSet_other base k p.1 p.2 hpk]

/-- Lookup misses when no entry has the key. -/
theorem objGet_none_of_not_key (m : List (String × String)) (k : String)
    (h : ∀ q ∈ m, q.1 ≠ k) : objGet m k = none := by
  induction m with
  | nil => rfl
  | cons p m ih =>
      have hp : ¬(p.1 = k) := h p (List.mem_cons_self p m)
      have htail := ih (fun q hq => h q (List.mem_cons_of_mem p hq))
      unfold objGet at htail ⊢
      rw [List.find?_cons_of_neg _ (by simp [hp])]
      exact htail

/-- With unique keys in the spread entries, an entry for `k` wins over the
base value. -/
theorem objGet_objSpread_extra_some (extra : List (String × String)) :
    ∀ (base : List (String × String)) (k v : String), (extra.map Prod.fst).Nodup →
      objGet extra k = some v → objGet (objSpread base extra) k = some v := by
  induction extra with
  | nil => intro base k v _ hsome; simp [objGet] at hsome
  | cons p extra ih =>
      intro base k v hnd hsome
      have hnd1 : p.1 ∉ extra.map Prod.fst ∧ (extra.map Prod.fst).Nodup := by
        rw [List.map_cons, List.nodup_cons] at hnd
        exact hnd
      have hspread : objSpread base (p :: extra) = objSpread (objSet base p.1 p.2) extra := rfl
      by_cases hpk : p.1 = k
      · have hv : some p.2 = some v := by
          unfold objGet at hsome
          rw [List.find?_cons_of_pos _ (by simp [hpk])] at hsome
          exact hsome
        have hnotkey : ∀ q ∈ extra, q.1 ≠ k := by
          intro q hq hqk
          exact hnd1.1 (by rw [hpk, ← hqk]; exact List.mem_map_of_mem Prod.fst hq)
        have htail : objGet extra k = none := objGet_none_of_not_key extra k hnotkey
        rw [hspread, objGet_objSpread_extra_none extra (objSet base p.1 p.2) k htail,
          hpk, objGet_objSet_self]
        exact hv
      · have htail : objGet extra k = some v := by
          unfold objGet at hsome ⊢
          rw [List.find?_cons_of_neg _ (by simp [hpk])] at hsome
          exact hsome
        rw [hspread, ih (objSet base p.1 p.2) k v hnd1.2 htail]

/-! ## Executing getAccessToken and request sequentially -/

theorem objGet_objSpread_single (base : List (String × String)) (k v : String) :
    objGet (objSpread base [(k, v)]) k = some v :=
  objGet_objSet_self base k v

/-- Occurrences of the auth-failure callback in the event log. -/
def countAuthFailures (l : List Event) : Nat :=
  l.countP (fun ev => ev = Event.authFailure)

theorem refreshFinish_fetchLog (cfg : Config) (pid : Nat) (o : FetchOutcome)
    (ws : List Waiter) (s : Sys) :
    (refreshFinish cfg pid o ws s).1.fetchLog = s.fetchLog := by
  unfold refreshFinish
  simp only [performTokenRefreshResult_snd]
  cases h : refreshOutcomeResult o <;> simp [h]

theorem performTokenRefreshResult_events (o : FetchOutcome) (s : Sys) :
    (performTokenRefreshResult o s).1.events =
      s.events ++ (if isAuthStatusFailure o then [Event.authFailure] else []) := by
  unfold performTokenRefreshResult
  by_cases h : isAuthStatusFailure o = true <;> simp [h]

theorem deliverAll_events_nonTimer (pid : Nat) (r : RefreshResult) (ws : List Waiter) :
    ∀ s : Sys, (∀ w ∈ ws, w.fromTimer = false) → (deliverAll pid r ws s).events = s.events := by
  induction ws with
  | nil => intro s _; rfl
  | cons w ws ih =>
      intro s hws
      rw [deliverAll_cons, ih _ (fun w2 h2 => hws w2 (List.mem_cons_of_mem w h2))]
      unfold deliverOne
      rw [hws w (List.mem_cons_self w ws)]
      simp

theorem refreshFinish_events_failure (cfg : Config) (pid : Nat) (o : FetchOutcome)
    (ws : List Waiter) (s : Sys) (e : RefreshFailure)
    (h : refreshOutcomeResult o = RefreshResult.failure e)
    (hws : ∀ w ∈ ws, w.fromTimer = false) :
    (refreshFinish cfg pid o ws s).1.events =
      s.events ++ (if isAuthStatusFailure o then [Event.authFailure] else [])
        ++ [Event.refreshErrored e] := by
  unfold refreshFinish
  simp only [performTokenRefreshResult_snd, h]
  rw [deliverAll_events_nonTimer pid (RefreshResult.failure e) ws _ hws]
  simp [performTokenRefreshResult_events, List.append_assoc]

theorem refreshFinish_accessToken_success (cfg : Config) (pid : Nat) (o : FetchOutcome)
    (ws : List Waiter) (s : Sys) (tok : JWTToken)
    (h : refreshOutcomeResult o = RefreshResult.success tok) :
    (refreshFinish cfg pid o ws s).1.mgr.accessToken = some tok := by
  unfold refreshFinish
  simp only [performTokenRefreshResult_snd, h]
  simp

/-- Awaiting a refresh from a state with an empty pending slot: one fetch
is initiated and its continuation runs on the supplied outcome. -/
theorem doRefreshSeq_slot_none (cfg : Config) (caller : Nat) (o : FetchOutcome) (s : Sys)
    (hslot : s.mgr.refreshPromise = none) (hinf : s.inflight = []) :
    doRefreshSeq cfg caller o s =
      refreshFinish cfg s.nextId o [⟨caller, false⟩]
        { s with
          mgr := { s.mgr with refreshPromise := some s.nextId },
          nextId := s.nextId + 1,
          inflight := [],
          refreshNetworkCalls := s.refreshNetworkCalls + 1,
          fetchLog := s.fetchLog ++ [refreshFetchCall cfg] } := by
  unfold doRefreshSeq
  rw [hslot, refreshStart_slot_none cfg caller false s hslot]
  simp [findInflight, hinf]

theorem getAccessTokenSeq_valid (cfg : Config) (caller : Nat) (o : FetchOutcome) (s : Sys)
    (tok : JWTToken) (htok : s.mgr.accessToken = some tok)
    (hval : isTokenExpired s.now tok cfg.refreshBuffer = false) :
    getAccessTokenSeq cfg caller o s = (s, GetTokenResult.token tok.token) := by
  unfold getAccessTokenSeq
  rw [htok]
  simp [hval]

/-- C5 (amended only in phrasing of the claim it proves): a `request`
whose original response is a 401 and whose refresh succeeds performs
exactly the original fetch, one refresh fetch, and one retried fetch (in
that order, three in total); the retry carries the refreshed token in its
`Authorization` header; and the caller receives the retried response,
whatever its status (no second refresh-retry cycle). -/
theorem C5_401_refresh_retry (cfg : Config) (caller : Nat) (req : Req)
    (oGet : FetchOutcome) (oRefresh : FetchOutcome) (s : Sys) (tok newTok : JWTToken)
    (resp rresp : HttpResp)
    (hslot : s.mgr.refreshPromise = none) (hinf : s.inflight = [])
    (htok : s.mgr.accessToken = some tok)
    (hval : isTokenExpired s.now tok cfg.refreshBuffer = false)
    (h401 : resp.status = 401)
    (hnew : refreshOutcomeResult oRefresh = RefreshResult.success newTok) :
    (requestSeq cfg caller req oGet (FetchReply.reply resp) oRefresh
        (FetchReply.reply rresp) s).2 =
      RequestOutcome.success
        { data := rresp.data, status := rresp.status,
          headers := rresp.headers, ok := rresp.ok } ∧
    (requestSeq cfg caller req oGet (FetchReply.reply resp) oRefresh
        (FetchReply.reply rresp) s).1.fetchLog =
      s.fetchLog ++
        [requestFetchCall req (requestHeaders tok.token req.headers),
         refreshFetchCall cfg,
         requestFetchCall req
           (objSpread (requestHeaders tok.token req.headers)
             [("Authorization", "Bearer " ++ newTok.token)])] ∧
    objGet (objSpread (requestHeaders tok.token req.headers)
        [("Authorization", "Bearer " ++ newTok.token)]) "Authorization" =
      some ("Bearer " ++ newTok.token) ∧
    (requestSeq cfg caller req oGet (FetchReply.reply resp) oRefresh
        (FetchReply.reply rresp) s).1.refreshNetworkCalls = s.refreshNetworkCalls + 1 := by
  have hs1slot : ({ s with fetchLog :=
      s.fetchLog ++ [requestFetchCall req (requestHeaders tok.token req.headers)] } :
        Sys).mgr.refreshPromise = none := hslot
  have hs1inf : ({ s with fetchLog :=
      s.fetchLog ++ [requestFetchCall req (requestHeaders tok.token req.headers)] } :
        Sys).inflight = [] := hinf
  unfold requestSeq
  rw [getAccessTokenSeq_valid cfg caller oGet s tok htok hval]
  simp only [h401, doRefreshSeq_slot_none cfg caller oRefresh _ hs1slot hs1inf,
    refreshFinish_snd, hnew, if_true, reduceIte]
  refine ⟨by simp, ?_, objGet_objSpread_single _ _ _, ?_⟩
  · rw [refreshFinish_fetchLog]
    simp
  · rw [refreshFinish_refreshNetworkCalls]

/-- A concrete manager state holding `tok0`, used by witnesses. -/
def sTok0 : Sys :=
  { initSys 0 with mgr := { (initSys 0).mgr with accessToken := some tok0 } }

/-- A second concrete well-formed token, used by witnesses. -/
def tok1 : JWTToken := { token := "d.e.f", expiresAt := 2000000 }

/-- A concrete request with no caller headers, used by witnesses. -/
def req0 : Req := { url := "x", method := none, headers := [] }

/-- A concrete 401 response, used by witnesses. -/
def resp401 : HttpResp := { status := 401, ok := false, data := "", headers := [] }

/-- A concrete second 401 response, used by witnesses. -/
def resp401b : HttpResp := { status := 401, ok := false, data := "again", headers := [] }

/-- Witness for C5 at a concrete state, request, and responses: the retry
response is returned even though it is again a 401. -/
theorem C5_401_refresh_retry_witness :
    sTok0.mgr.refreshPromise = none ∧
    isTokenExpired sTok0.now tok0 cfg0.refreshBuffer = false ∧
    refreshOutcomeResult (FetchOutcome.resolved true 200 (some tok1)) =
      RefreshResult.success tok1 ∧
    (requestSeq cfg0 1 req0 FetchOutcome.rejected (FetchReply.reply resp401)
        (FetchOutcome.resolved true 200 (some tok1)) (FetchReply.reply resp401b) sTok0).2 =
      RequestOutcome.success { data := "again", status := 401, headers := [], ok := false } :=
  ⟨rfl, by decide, by decide,
    by
      have h := (C5_401_refresh_retry cfg0 1 req0 FetchOutcome.rejected
        (FetchOutcome.resolved true 200 (some tok1)) sTok0 tok0 tok1 resp401 resp401b
        rfl rfl rfl (by decide) rfl (by decide)).1
      exact h⟩

/-- C3 as stated is false: when the failing refresh response is itself a
401, `performTokenRefresh` clears the token and fires the auth-failure
callback, and the catch in `request` then does both again, so the
callback runs twice, not exactly once. -/
theorem C3_counterexample :
    countAuthFailures
      (requestSeq cfg0 1 req0 FetchOutcome.rejected (FetchReply.reply resp401)
        (FetchOutcome.resolved false 401 none) (FetchReply.reply resp401b) sTok0).1.events = 2 ∧
    (requestSeq cfg0 1 req0 FetchOutcome.rejected (FetchReply.reply resp401)
        (FetchOutcome.resolved false 401 none) (FetchReply.reply resp401b) sTok0).2 =
      RequestOutcome.noValidToken "Authentication required" ∧
    (requestSeq cfg0 1 req0 FetchOutcome.rejected (FetchReply.reply resp401)
        (FetchOutcome.resolved false 401 none) (FetchReply.reply resp401b)
        sTok0).1.mgr.accessToken = none := by
  refine ⟨?_, ?_, ?_⟩ <;> decide

/-- C3 amended: a `request` whose original response is a 401 and whose
refresh fails ends with the token absent and rejects with
`NoValidTokenError`; the auth-failure callback fires exactly once when the
refresh failure is not itself a 401/403 refresh response, and twice when
it is. -/
theorem C3_401_refresh_failure (cfg : Config) (caller : Nat) (req : Req)
    (oGet : FetchOutcome) (oRefresh : FetchOutcome) (r2 : FetchReply) (s : Sys)
    (tok : JWTToken) (resp : HttpResp) (e : RefreshFailure)
    (hslot : s.mgr.refreshPromise = none) (hinf : s.inflight = [])
    (htok : s.mgr.accessToken = some tok)
    (hval : isTokenExpired s.now tok cfg.refreshBuffer = false)
    (h401 : resp.status = 401)
    (hfail : refreshOutcomeResult oRefresh = RefreshResult.failure e) :
    (requestSeq cfg caller req oGet (FetchReply.reply resp) oRefresh r2 s).2 =
      RequestOutcome.noValidToken "Authentication required" ∧
    (requestSeq cfg caller req oGet (FetchReply.reply resp) oRefresh r2 s).1.mgr.accessToken
      = none ∧
    (requestSeq cfg caller req oGet (FetchReply.reply resp) oRefresh r2 s).1.events =
      s.events ++ (if isAuthStatusFailure oRefresh then [Event.authFailure] else [])
        ++ [Event.refreshErrored e] ++ [Event.authFailure] ∧
    countAuthFailures
        (requestSeq cfg caller req oGet (FetchReply.reply resp) oRefresh r2 s).1.events =
      countAuthFailures s.events + (if isAuthStatusFailure oRefresh then 2 else 1) := by
  have hs1slot : ({ s with fetchLog :=
      s.fetchLog ++ [requestFetchCall req (requestHeaders tok.token req.headers)] } :
        Sys).mgr.refreshPromise = none := hslot
  have hs1inf : ({ s with fetchLog :=
      s.fetchLog ++ [requestFetchCall req (requestHeaders tok.token req.headers)] } :
        Sys).inflight = [] := hinf
  have hws : ∀ w ∈ [(⟨caller, false⟩ : Waiter)], w.fromTimer = false := by
    intro w hw
    rw [List.mem_singleton] at hw
    subst hw
    rfl
  unfold requestSeq
  rw [getAccessTokenSeq_valid cfg caller oGet s tok htok hval]
  simp only [h401, doRefreshSeq_slot_none cfg caller oRefresh _ hs1slot hs1inf,
    refreshFinish_snd, hfail, reduceIte]
  refine ⟨by simp, by simp, ?_, ?_⟩
  · rw [pushEvent_events, clearAccessToken_events,
      refreshFinish_events_failure cfg _ oRefresh _ _ e hfail hws]
  · rw [pushEvent_events, clearAccessToken_events,
      refreshFinish_events_failure cfg _ oRefresh _ _ e hfail hws]
    by_cases h : isAuthStatusFailure oRefresh = true <;>
      simp [h, countAuthFailures, List.countP_append, List.countP_cons]

/-- Witness for the amended C3 at a concrete network-error refresh
failure (auth-failure callback fires exactly once there). -/
theorem C3_401_refresh_failure_witness :
    sTok0.mgr.refreshPromise = none ∧
    isTokenExpired sTok0.now tok0 cfg0.refreshBuffer = false ∧
    refreshOutcomeResult FetchOutcome.rejected =
      RefreshResult.failure RefreshFailure.network ∧
    countAuthFailures
        (requestSeq cfg0 1 req0 FetchOutcome.rejected (FetchReply.reply resp401)
          FetchOutcome.rejected (FetchReply.reply resp401b) sTok0).1.events =
      countAuthFailures sTok0.events +
        (if isAuthStatusFailure FetchOutcome.rejected then 2 else 1) :=
  ⟨rfl, by decide, rfl,
    (C3_401_refresh_failure cfg0 1 req0 FetchOutcome.rejected FetchOutcome.rejected
      (FetchReply.reply resp401b) sTok0 tok0 resp401 RefreshFailure.network
      rfl rfl rfl (by decide) rfl rfl).2.2.2⟩

/-- A concrete request carrying a caller-supplied Authorization header. -/
def reqAuth : Req := { url := "x", method := none, headers := [("Authorization", "Basic evil")] }

/-- A concrete 200 response, used by witnesses. -/
def resp200 : HttpResp := { status := 200, ok := true, data := "d", headers := [] }

/-- C2 as stated is false: the source spreads the caller headers after the
`Authorization` entry, so a caller-supplied `Authorization` header
replaces the bearer header on the executed request. -/
theorem C2_counterexample :
    ((requestSeq cfg0 1 reqAuth FetchOutcome.rejected (FetchReply.reply resp200)
        FetchOutcome.rejected (FetchReply.reply resp200) sTok0).1.fetchLog.map
      (fun fc => objGet fc.headers "Authorization")) = [some "Basic evil"] ∧
    "Basic evil" ≠ "Bearer " ++ tok0.token := by
  refine ⟨?_, ?_⟩ <;> decide

/-- C2 amended: the executed request carries headers formed by spreading
the caller's headers over the bearer `Authorization` entry derived from
`getAccessToken`; when the caller supplies no `Authorization` header the
bearer header is used, and a caller-supplied `Authorization` header (with
well-formed, duplicate-free headers) replaces it. -/
theorem C2_request_authorization (cfg : Config) (caller : Nat) (req : Req)
    (oGet : FetchOutcome) (r1 : FetchReply) (oRefresh : FetchOutcome) (r2 : FetchReply)
    (s : Sys) (tok : JWTToken)
    (hslot : s.mgr.refreshPromise = none) (hinf : s.inflight = [])
    (htok : s.mgr.accessToken = some tok)
    (hval : isTokenExpired s.now tok cfg.refreshBuffer = false) :
    (∃ rest, (requestSeq cfg caller req oGet r1 oRefresh r2 s).1.fetchLog =
      s.fetchLog ++ requestFetchCall req (requestHeaders tok.token req.headers) :: rest) ∧
    (objGet req.headers "Authorization" = none →
      objGet (requestHeaders tok.token req.headers) "Authorization" =
        some ("Bearer " ++ tok.token)) ∧
    (∀ v, (req.headers.map Prod.fst).Nodup → objGet req.headers "Authorization" = some v →
      objGet (requestHeaders tok.token req.headers) "Authorization" = some v) := by
  have hs1slot : ({ s with fetchLog :=
      s.fetchLog ++ [requestFetchCall req (requestHeaders tok.token req.headers)] } :
        Sys).mgr.refreshPromise = none := hslot
  have hs1inf : ({ s with fetchLog :=
      s.fetchLog ++ [requestFetchCall req (requestHeaders tok.token req.headers)] } :
        Sys).inflight = [] := hinf
  refine ⟨?_, ?_, ?_⟩
  · unfold requestSeq
    rw [getAccessTokenSeq_valid cfg caller oGet s tok htok hval]
    cases r1 with
    | reject => exact ⟨[], by simp⟩
    | reply resp =>
        by_cases h4 : resp.status = 401
        · simp only [h4, reduceIte,
            doRefreshSeq_slot_none cfg caller oRefresh _ hs1slot hs1inf, refreshFinish_snd]
          cases hr : refreshOutcomeResult oRefresh with
          | failure e =>
              refine ⟨[refreshFetchCall cfg], ?_⟩
              rw [pushEvent_fetchLog, clearAccessToken_fetchLog, refreshFinish_fetchLog]
              simp
          | success nt =>
              cases r2 with
              | reject =>
                  refine ⟨[refreshFetchCall cfg,
                    requestFetchCall req (objSpread (requestHeaders tok.token req.headers)
                      [("Authorization", "Bearer " ++ nt.token)])], ?_⟩
                  rw [pushEvent_fetchLog, clearAccessToken_fetchLog]
                  simp [refreshFinish_fetchLog]
              | reply rresp =>
                  refine ⟨[refreshFetchCall cfg,
                    requestFetchCall req (objSpread (requestHeaders tok.token req.headers)
                      [("Authorization", "Bearer " ++ nt.token)])], ?_⟩
                  simp [refreshFinish_fetchLog]
        · simp only [h4, reduceIte]
          exact ⟨[], by simp⟩
  · intro hnone
    unfold requestHeaders
    rw [objGet_objSpread_extra_none req.headers _ _ hnone]
    unfold objGet
    rw [List.find?_cons_of_pos _ (by simp)]
    rfl
  · intro v hnd hsome
    exact objGet_objSpread_extra_some req.headers _ "Authorization" v hnd hsome

/-- Witness for the amended C2: with no caller Authorization header the
bearer header is present; with one supplied, it wins. -/
theorem C2_request_authorization_witness :
    sTok0.mgr.refreshPromise = none ∧
    isTokenExpired sTok0.now tok0 cfg0.refreshBuffer = false ∧
    (∃ rest, (requestSeq cfg0 1 reqAuth FetchOutcome.rejected (FetchReply.reply resp200)
        FetchOutcome.rejected (FetchReply.reply resp200) sTok0).1.fetchLog =
      sTok0.fetchLog ++
        requestFetchCall reqAuth (requestHeaders tok0.token reqAuth.headers) :: rest) ∧
    objGet (requestHeaders tok0.token reqAuth.headers) "Authorization" = some "Basic evil" :=
  ⟨rfl, by decide,
    (C2_request_authorization cfg0 1 reqAuth FetchOutcome.rejected
      (FetchReply.reply resp200) FetchOutcome.rejected (FetchReply.reply resp200) sTok0 tok0
      rfl rfl rfl (by decide)).1,
    (C2_request_authorization cfg0 1 reqAuth FetchOutcome.rejected
      (FetchReply.reply resp200) FetchOutcome.rejected (FetchReply.reply resp200) sTok0 tok0
      rfl rfl rfl (by decide)).2.2 "Basic evil" (by decide) (by decide)⟩

/-! ## The timer discipline and the token-format invariant -/

/-- At most one live timer, always the one whose handle is stored in
`refreshTimeoutId`, and handles are always below the fresh-id counter. -/
def TimerInv (s : Sys) : Prop :=
  (s.armedTimers = [] ∨ ∃ id, s.mgr.refreshTimeoutId = some id ∧ s.armedTimers = [id])
  ∧ (∀ id, s.mgr.refreshTimeoutId = some id → id < s.nextId)

/-- The stored token, when present, passes structural format validation. -/
def TokenInv (s : Sys) : Prop :=
  ∀ t : JWTToken, s.mgr.accessToken = some t → isValidJWTFormat t.token = true

theorem clearRefreshTimeout_armed_nil (s : Sys) (h : TimerInv s) :
    (clearRefreshTimeout s).armedTimers = [] := by
  rw [clearRefreshTimeout_armedTimers]
  cases hid : s.mgr.refreshTimeoutId with
  | none =>
      rcases h.1 with h1 | ⟨id, hid2, _⟩
      · exact h1
      · rw [hid] at hid2; cases hid2
  | some id =>
      rcases h.1 with h1 | ⟨id2, hid2, harm⟩
      · rw [h1]; rfl
      · rw [hid] at hid2
        injection hid2 with he
        subst he
        rw [harm]
        simp

theorem TimerInv_clearRefreshTimeout (s : Sys) (h : TimerInv s) :
    TimerInv (clearRefreshTimeout s) := by
  constructor
  · left; exact clearRefreshTimeout_armed_nil s h
  · intro id hid
    rw [clearRefreshTimeout_refreshTimeoutId] at hid
    cases hid

theorem TimerInv_scheduleTokenRefresh (cfg : Config) (s : Sys) (h : TimerInv s) :
    TimerInv (scheduleTokenRefresh cfg s) := by
  have hc := TimerInv_clearRefreshTimeout s h
  have hnil := clearRefreshTimeout_armed_nil s h
  unfold scheduleTokenRefresh
  cases ht : (clearRefreshTimeout s).mgr.accessToken with
  | none => simp only [ht]; exact hc
  | some tok =>
      simp only [ht]
      split
      · constructor
        · right
          exact ⟨(clearRefreshTimeout s).nextId, rfl, by rw [hnil]⟩
        · intro id hid
          have h3 : (clearRefreshTimeout s).nextId = id := by
            injection hid
          show id < (clearRefreshTimeout s).nextId + 1
          omega
      · exact hc

theorem TimerInv_clearAccessToken (s : Sys) (h : TimerInv s) : TimerInv (clearAccessToken s) :=
  TimerInv_clearRefreshTimeout s h

theorem TimerInv_destroy (s : Sys) (h : TimerInv s) : TimerInv (destroy s) :=
  TimerInv_clearRefreshTimeout s h

theorem TimerInv_refreshStart (cfg : Config) (caller : Nat) (ft : Bool) (s : Sys)
    (h : TimerInv s) : TimerInv (refreshStart cfg caller ft s) := by
  unfold refreshStart
  cases hp : s.mgr.refreshPromise with
  | some pid => exact h
  | none =>
      constructor
      · exact h.1
      · intro id hid
        exact Nat.lt_succ_of_lt (h.2 id hid)

theorem TimerInv_eraseTimer (s : Sys) (id : Nat) (h : TimerInv s) :
    TimerInv { s with armedTimers := s.armedTimers.erase id } := by
  constructor
  · rcases h.1 with h1 | ⟨id2, hid2, harm⟩
    · left
      show s.armedTimers.erase id = []
      rw [h1]; rfl
    · by_cases he : id2 = id
      · left
        show s.armedTimers.erase id = []
        rw [harm, he]
        simp
      · right
        refine ⟨id2, hid2, ?_⟩
        show s.armedTimers.erase id = [id2]
        rw [harm]
        simp [List.erase_cons, he]
  · intro id2 hid2
    exact h.2 id2 hid2

theorem TimerInv_deliverAll (pid : Nat) (r : RefreshResult) (ws : List Waiter) (s : Sys)
    (h : TimerInv s) : TimerInv (deliverAll pid r ws s) := by
  constructor
  · rcases h.1 with h1 | ⟨id, hid, harm⟩
    · left; rw [deliverAll_armedTimers]; exact h1
    · right
      exact ⟨id, by rw [deliverAll_mgr]; exact hid, by rw [deliverAll_armedTimers]; exact harm⟩
  · intro id hid
    rw [deliverAll_mgr] at hid
    rw [deliverAll_nextId]
    exact h.2 id hid

theorem TimerInv_performTokenRefreshResult (o : FetchOutcome) (s : Sys) (h : TimerInv s) :
    TimerInv (performTokenRefreshResult o s).1 := by
  unfold performTokenRefreshResult
  by_cases ha : isAuthStatusFailure o = true
  · simp only [ha, reduceIte]
    exact TimerInv_clearAccessToken s h
  · simp only [ha, reduceIte]
    split
    · exact TimerInv_clearAccessToken s h
    · exact h

theorem TimerInv_refreshFinish (cfg : Config) (pid : Nat) (o : FetchOutcome)
    (ws : List Waiter) (s : Sys) (h : TimerInv s) :
    TimerInv (refreshFinish cfg pid o ws s).1 := by
  unfold refreshFinish
  simp only [performTokenRefreshResult_snd]
  have hbase := TimerInv_performTokenRefreshResult o s h
  cases hr : refreshOutcomeResult o with
  | success tok =>
      simp only [hr]
      exact TimerInv_deliverAll _ _ _ _ (TimerInv_scheduleTokenRefresh cfg _ hbase)
  | failure e =>
      simp only [hr]
      exact TimerInv_deliverAll _ _ _ _ hbase

theorem setAccessTokenStr_ok (cfg : Config) (parsePayload : String → Option JWTPayload)
    (str : String) (s s3 : Sys)
    (h : setAccessTokenStr cfg parsePayload str s = Except.ok s3) :
    isValidJWTFormat str = true ∧
    ∃ tok, createJWTToken parsePayload str = Except.ok tok ∧ tok.token = str ∧
      s3 = setAccessTokenTok cfg tok s := by
  unfold setAccessTokenStr at h
  by_cases hv : isValidJWTFormat str = false
  · rw [if_pos hv] at h; cases h
  · rw [if_neg hv] at h
    refine ⟨by revert hv; cases isValidJWTFormat str <;> simp, ?_⟩
    cases hc : createJWTToken parsePayload str with
    | error e => rw [hc] at h; cases h
    | ok tok =>
        rw [hc] at h
        injection h with h2
        refine ⟨tok, rfl, ?_, h2.symm⟩
        unfold createJWTToken at hc
        cases hg : getTokenExpiration parsePayload str with
        | ok E => rw [hg] at hc; injection hc with h3; rw [← h3]
        | error e => rw [hg] at hc; cases hc

/-- Invariant preservation for every event-loop step: at most one timer is
ever armed. -/
theorem TimerInv_step (cfg : Config) (parsePayload : String → Option JWTPayload)
    (s : Sys) (a : Action) (s2 : Sys)
    (h : TimerInv s) (hstep : step cfg parsePayload s a = some s2) : TimerInv s2 := by
  cases a with
  | callRefresh c =>
      simp only [step] at hstep
      injection hstep with h2
      subst h2
      exact TimerInv_refreshStart cfg c false s h
  | fetchResolve pid o =>
      simp only [step] at hstep
      cases hf : findInflight pid s.inflight with
      | none => rw [hf] at hstep; cases hstep
      | some ws =>
          rw [hf] at hstep
          injection hstep with h2
          subst h2
          unfold refreshComplete
          rw [hf]
          exact TimerInv_refreshFinish cfg pid o ws _ h
  | timerFire id =>
      simp only [step] at hstep
      by_cases hin : id ∈ s.armedTimers
      · rw [if_pos hin] at hstep
        injection hstep with h2
        subst h2
        exact TimerInv_refreshStart cfg 0 true _ (TimerInv_eraseTimer s id h)
      · rw [if_neg hin] at hstep; cases hstep
  | callDestroy =>
      simp only [step] at hstep
      injection hstep with h2
      subst h2
      exact TimerInv_destroy s h
  | callClear =>
      simp only [step] at hstep
      injection hstep with h2
      subst h2
      exact TimerInv_clearAccessToken s h
  | setTokenObj tok =>
      simp only [step] at hstep
      injection hstep with h2
      subst h2
      exact TimerInv_scheduleTokenRefresh cfg _ h
  | setTokenStr str =>
      simp only [step] at hstep
      cases hset : setAccessTokenStr cfg parsePayload str s with
      | ok s3 =>
          rw [hset] at hstep
          injection hstep with h2
          subst h2
          obtain ⟨_, tok, _, _, hs3⟩ := setAccessTokenStr_ok cfg parsePayload str s s3 hset
          rw [hs3]
          exact TimerInv_scheduleTokenRefresh cfg _ h
      | error e =>
          rw [hset] at hstep
          injection hstep with h2
          subst h2
          exact h
  | advance d =>
      simp only [step] at hstep
      injection hstep with h2
      subst h2
      exact h

theorem scheduleTokenRefresh_rearm (cfg : Config) (s : Sys) (tok : JWTToken)
    (h : s.mgr.accessToken = some tok)
    (hd : 0 < tok.expiresAt - s.now - cfg.refreshBuffer) :
    (scheduleTokenRefresh cfg s).mgr.refreshTimeoutId = some s.nextId ∧
    (scheduleTokenRefresh cfg s).armedTimers =
      s.nextId :: (clearRefreshTimeout s).armedTimers := by
  unfold scheduleTokenRefresh
  have h2 : (clearRefreshTimeout s).mgr.accessToken = some tok := by simp [h]
  simp only [h2]
  rw [if_pos (by rw [clearRefreshTimeout_now]; exact hd)]
  constructor
  · simp
  · simp

theorem scheduleTokenRefresh_no_token (cfg : Config) (s : Sys)
    (h : s.mgr.accessToken = none) :
    scheduleTokenRefresh cfg s = clearRefreshTimeout s := by
  unfold scheduleTokenRefresh
  have h2 : (clearRefreshTimeout s).mgr.accessToken = none := by simp [h]
  simp only [h2]

theorem scheduleTokenRefresh_expired (cfg : Config) (s : Sys) (tok : JWTToken)
    (h : s.mgr.accessToken = some tok)
    (hd : tok.expiresAt - s.now - cfg.refreshBuffer ≤ 0) :
    scheduleTokenRefresh cfg s = clearRefreshTimeout s := by
  unfold scheduleTokenRefresh
  have h2 : (clearRefreshTimeout s).mgr.accessToken = some tok := by simp [h]
  simp only [h2]
  rw [if_neg (by rw [clearRefreshTimeout_now]; omega)]

theorem TimerInv_length (s : Sys) (h : TimerInv s) : s.armedTimers.length ≤ 1 := by
  rcases h.1 with h1 | ⟨id, _, harm⟩
  · simp [h1]
  · simp [harm]

theorem refreshFinish_timer_failure (cfg : Config) (pid : Nat) (o : FetchOutcome) (c : Nat)
    (s : Sys) (e : RefreshFailure)
    (hfail : refreshOutcomeResult o = RefreshResult.failure e) :
    (refreshFinish cfg pid o [⟨c, true⟩] s).1.results = s.results ∧
    Event.warnScheduledRefreshFailed ∈ (refreshFinish cfg pid o [⟨c, true⟩] s).1.events := by
  unfold refreshFinish
  simp only [performTokenRefreshResult_snd, hfail]
  constructor
  · simp [deliverAll, deliverOne]
  · simp [deliverAll, deliverOne]

/-- C9: the timer discipline.  (1) A fresh manager has no armed timer;
(2) every step preserves the invariant that at most one timer is armed
(always the one held in `refreshTimeoutId`); (3) scheduling first cancels
any prior timer, and arms a new one-shot timer exactly when a token is
present and `expiresAt - now - refreshBuffer` is strictly positive — when
the buffer meets or exceeds the remaining lifetime nothing is armed;
(4) a timer-triggered refresh that fails delivers no rejection to any
caller: it only logs a warning. -/
theorem C9_timer_discipline :
    (∀ t : Int, TimerInv (initSys t)) ∧
    (∀ (cfg : Config) (parsePayload : String → Option JWTPayload) (s : Sys) (a : Action)
        (s2 : Sys), TimerInv s → step cfg parsePayload s a = some s2 →
      TimerInv s2 ∧ s2.armedTimers.length ≤ 1) ∧
    (∀ (cfg : Config) (s : Sys) (tok : JWTToken), TimerInv s →
      (∀ id ∈ s.armedTimers, id ∉ (scheduleTokenRefresh cfg s).armedTimers) ∧
      (s.mgr.accessToken = none → (scheduleTokenRefresh cfg s).armedTimers = []) ∧
      (s.mgr.accessToken = some tok →
        (0 < tok.expiresAt - s.now - cfg.refreshBuffer →
          (scheduleTokenRefresh cfg s).armedTimers = [s.nextId] ∧
          (scheduleTokenRefresh cfg s).mgr.refreshTimeoutId = some s.nextId) ∧
        (tok.expiresAt - s.now - cfg.refreshBuffer ≤ 0 →
          (scheduleTokenRefresh cfg s).armedTimers = []))) ∧
    (∀ (cfg : Config) (parsePayload : String → Option JWTPayload) (s : Sys) (id : Nat)
        (o : FetchOutcome) (e : RefreshFailure) (s1 s2 : Sys),
      s.mgr.refreshPromise = none → s.inflight = [] →
      step cfg parsePayload s (Action.timerFire id) = some s1 →
      refreshOutcomeResult o = RefreshResult.failure e →
      step cfg parsePayload s1 (Action.fetchResolve s.nextId o) = some s2 →
      s2.results = s.results ∧ Event.warnScheduledRefreshFailed ∈ s2.events) := by
  refine ⟨?_, ?_, ?_, ?_⟩
  · intro t
    exact ⟨Or.inl rfl, fun id h => by cases h⟩
  · intro cfg parsePayload s a s2 h hstep
    have h2 := TimerInv_step cfg parsePayload s a s2 h hstep
    exact ⟨h2, TimerInv_length s2 h2⟩
  · intro cfg s tok h
    refine ⟨?_, ?_, ?_⟩
    · intro id hid
      cases hacc : s.mgr.accessToken with
      | none =>
          rw [scheduleTokenRefresh_no_token cfg s hacc, clearRefreshTimeout_armed_nil s h]
          exact List.not_mem_nil id
      | some tok2 =>
          by_cases hd : 0 < tok2.expiresAt - s.now - cfg.refreshBuffer
          · rw [(scheduleTokenRefresh_rearm cfg s tok2 hacc hd).2,
              clearRefreshTimeout_armed_nil s h]
            rcases h.1 with h1 | ⟨id2, hf, harm⟩
            · rw [h1] at hid; cases hid
            · rw [harm] at hid
              have he : id = id2 := by simpa using hid
              subst he
              have hlt := h.2 id hf
              simp only [List.mem_singleton]
              omega
          · rw [scheduleTokenRefresh_expired cfg s tok2 hacc (by omega),
              clearRefreshTimeout_armed_nil s h]
            exact List.not_mem_nil id
    · intro hacc
      rw [scheduleTokenRefresh_no_token cfg s hacc]
      exact clearRefreshTimeout_armed_nil s h
    · intro hacc
      constructor
      · intro hd
        refine ⟨?_, (scheduleTokenRefresh_rearm cfg s tok hacc hd).1⟩
        rw [(scheduleTokenRefresh_rearm cfg s tok hacc hd).2,
          clearRefreshTimeout_armed_nil s h]
      · intro hd
        rw [scheduleTokenRefresh_expired cfg s tok hacc hd]
        exact clearRefreshTimeout_armed_nil s h
  · intro cfg parsePayload s id o e s1 s2 hslot hinf hstep1 hfail hstep2
    simp only [step] at hstep1
    by_cases hin : id ∈ s.armedTimers
    · rw [if_pos hin] at hstep1
      injection hstep1 with h1
      subst h1
      have hslot2 : ({ s with armedTimers := s.armedTimers.erase id } : Sys).mgr.refreshPromise
          = none := hslot
      rw [refreshStart_slot_none cfg 0 true _ hslot2] at hstep2
      rw [step_fetchResolve_singleton cfg parsePayload _ s.nextId [⟨0, true⟩] o
        (by simp [hinf])] at hstep2
      injection hstep2 with h2
      subst h2
      exact refreshFinish_timer_failure cfg s.nextId o 0 _ e hfail
    · rw [if_neg hin] at hstep1
      cases hstep1

/-- Concrete states for the C9 witness: arm a timer, fire it, and fail
the resulting refresh. -/
def s9a : Sys := setAccessTokenTok cfg0 tok0 (initSys 0)

/-- The state after the armed timer fires (starting a refresh fetch). -/
def s9b : Sys := refreshStart cfg0 0 true { s9a with armedTimers := s9a.armedTimers.erase 1 }

/-- The state after the timer-triggered refresh fetch rejects. -/
def s9c : Sys := refreshComplete cfg0 2 FetchOutcome.rejected s9b

/-- Witness for C9 on concrete states: invariants hold at and after a
step, scheduling from a fresh state arms nothing, and a failed
timer-triggered refresh only warns. -/
theorem C9_timer_discipline_witness :
    TimerInv (initSys 0) ∧
    (TimerInv s9a ∧ s9a.armedTimers.length ≤ 1) ∧
    (scheduleTokenRefresh cfg0 (initSys 0)).armedTimers = [] ∧
    (step cfg0 (fun _ => none) s9a (Action.timerFire 1) = some s9b ∧
      step cfg0 (fun _ => none) s9b (Action.fetchResolve s9a.nextId FetchOutcome.rejected) =
        some s9c ∧
      s9c.results = s9a.results ∧ Event.warnScheduledRefreshFailed ∈ s9c.events) := by
  have hInit : TimerInv (initSys 0) := ⟨Or.inl rfl, fun id h => by cases h⟩
  refine ⟨hInit, ?_, ?_, rfl, rfl, ?_⟩
  · exact C9_timer_discipline.2.1 cfg0 (fun _ => none) (initSys 0)
      (Action.setTokenObj tok0) s9a hInit rfl
  · exact (C9_timer_discipline.2.2.1 cfg0 (initSys 0) tok0 hInit).2.1 rfl
  · exact C9_timer_discipline.2.2.2 cfg0 (fun _ => none) s9a 1 FetchOutcome.rejected
      RefreshFailure.network s9b s9c rfl rfl rfl rfl rfl

@[simp] theorem refreshStart_accessToken (cfg : Config) (caller : Nat) (ft : Bool) (s : Sys) :
    (refreshStart cfg caller ft s).mgr.accessToken = s.mgr.accessToken := by
  unfold refreshStart
  cases hp : s.mgr.refreshPromise <;> rfl

@[simp] theorem destroy_accessToken (s : Sys) : (destroy s).mgr.accessToken = none := rfl

@[simp] theorem destroy_refreshPromise (s : Sys) : (destroy s).mgr.refreshPromise = none := rfl

@[simp] theorem destroy_refreshTimeoutId (s : Sys) :
    (destroy s).mgr.refreshTimeoutId = none := clearRefreshTimeout_refreshTimeoutId s

@[simp] theorem destroy_now (s : Sys) : (destroy s).now = s.now := clearRefreshTimeout_now s

@[simp] theorem destroy_nextId (s : Sys) : (destroy s).nextId = s.nextId :=
  clearRefreshTimeout_nextId s

@[simp] theorem destroy_inflight (s : Sys) : (destroy s).inflight = s.inflight :=
  clearRefreshTimeout_inflight s

theorem refreshOutcomeResult_success_valid (o : FetchOutcome) (tok : JWTToken)
    (h : refreshOutcomeResult o = RefreshResult.success tok) :
    isValidJWTFormat tok.token = true := by
  unfold refreshOutcomeResult at h
  cases o with
  | rejected => cases h
  | resolved ok status ex =>
      by_cases hok : ok = false
      · simp [hok] at h
      · cases ex with
        | none => simp [hok] at h
        | some tok2 =>
            by_cases hv : isValidJWTFormat tok2.token = true
            · simp only [hok, reduceIte, hv] at h
              injection h with h2
              rw [← h2]
              exact hv
            · simp [hok, hv] at h

theorem refreshFinish_accessToken_failure (cfg : Config) (pid : Nat) (o : FetchOutcome)
    (ws : List Waiter) (s : Sys) (e : RefreshFailure)
    (h : refreshOutcomeResult o = RefreshResult.failure e) :
    (refreshFinish cfg pid o ws s).1.mgr.accessToken = none ∨
    (refreshFinish cfg pid o ws s).1.mgr.accessToken = s.mgr.accessToken := by
  unfold refreshFinish
  simp only [performTokenRefreshResult_snd, h]
  unfold performTokenRefreshResult
  by_cases ha : isAuthStatusFailure o = true
  · left; simp [ha]
  · right; simp [ha]

/-- C6 as stated is false: `setAccessToken` stores a caller-supplied
`JWTToken` object without any validation, so a malformed token string
enters the state. -/
theorem C6_counterexample :
    (step cfg0 (fun _ => none) (initSys 0)
        (Action.setTokenObj { token := "not-a-jwt", expiresAt := 999999 })).map
      (fun s => s.mgr.accessToken) =
      some (some { token := "not-a-jwt", expiresAt := 999999 }) ∧
    isValidJWTFormat "not-a-jwt" = false := by
  refine ⟨?_, ?_⟩ <;> decide

/-- C6 amended: the format invariant on the stored token is preserved by
every operation — `setAccessToken` with a string (validated), a completed
refresh (the refresh result is format-checked before it is stored), and
all clearing operations — provided every `JWTToken` object passed
directly to `setAccessToken` is itself structurally valid. -/
theorem C6_token_format_invariant :
    ∀ (cfg : Config) (parsePayload : String → Option JWTPayload) (s : Sys) (a : Action)
      (s2 : Sys), TokenInv s →
      (∀ tok, a = Action.setTokenObj tok → isValidJWTFormat tok.token = true) →
      step cfg parsePayload s a = some s2 → TokenInv s2 := by
  intro cfg parsePayload s a s2 h hobj hstep
  cases a with
  | callRefresh c =>
      simp only [step] at hstep
      injection hstep with h2
      subst h2
      intro t ht
      rw [refreshStart_accessToken] at ht
      exact h t ht
  | fetchResolve pid o =>
      simp only [step] at hstep
      cases hf : findInflight pid s.inflight with
      | none => rw [hf] at hstep; cases hstep
      | some ws =>
          rw [hf] at hstep
          injection hstep with h2
          subst h2
          unfold refreshComplete
          rw [hf]
          intro t ht
          cases hr : refreshOutcomeResult o with
          | success tok =>
              rw [refreshFinish_accessToken_success cfg pid o ws _ tok hr] at ht
              injection ht with h3
              subst h3
              exact refreshOutcomeResult_success_valid o tok hr
          | failure e =>
              rcases refreshFinish_accessToken_failure cfg pid o ws _ e hr with hn | hs
              · rw [hn] at ht; cases ht
              · rw [hs] at ht
                exact h t ht
  | timerFire id =>
      simp only [step] at hstep
      by_cases hin : id ∈ s.armedTimers
      · rw [if_pos hin] at hstep
        injection hstep with h2
        subst h2
        intro t ht
        rw [refreshStart_accessToken] at ht
        exact h t ht
      · rw [if_neg hin] at hstep; cases hstep
  | callDestroy =>
      simp only [step] at hstep
      injection hstep with h2
      subst h2
      intro t ht
      rw [destroy_accessToken] at ht
      cases ht
  | callClear =>
      simp only [step] at hstep
      injection hstep with h2
      subst h2
      intro t ht
      rw [clearAccessToken_accessToken] at ht
      cases ht
  | setTokenObj tok =>
      simp only [step] at hstep
      injection hstep with h2
      subst h2
      intro t ht
      rw [setAccessTokenTok_accessToken] at ht
      injection ht with h3
      subst h3
      exact hobj tok rfl
  | setTokenStr str =>
      simp only [step] at hstep
      cases hset : setAccessTokenStr cfg parsePayload str s with
      | ok s3 =>
          rw [hset] at hstep
          injection hstep with h2
          subst h2
          obtain ⟨hvstr, tok, hcr, htok, hs3⟩ := setAccessTokenStr_ok cfg parsePayload str s s3 hset
          rw [hs3]
          intro t ht
          rw [setAccessTokenTok_accessToken] at ht
          injection ht with h3
          subst h3
          rw [htok]
          exact hvstr
      | error e =>
          rw [hset] at hstep
          injection hstep with h2
          subst h2
          exact h
  | advance d =>
      simp only [step] at hstep
      injection hstep with h2
      subst h2
      intro t ht
      exact h t ht

/-- Witness for the amended C6: from a fresh manager, storing a valid
token object preserves the invariant. -/
theorem C6_token_format_invariant_witness :
    TokenInv (initSys 0) ∧ isValidJWTFormat tok0.token = true ∧
    TokenInv (setAccessTokenTok cfg0 tok0 (initSys 0)) := by
  have h0 : TokenInv (initSys 0) := fun t ht => by cases ht
  refine ⟨h0, by decide, ?_⟩
  exact C6_token_format_invariant cfg0 (fun _ => none) (initSys 0)
    (Action.setTokenObj tok0) _ h0 (by intro tok hh; cases hh; decide) rfl

theorem refreshFinish_rearm_success (cfg : Config) (pid : Nat) (ws : List Waiter) (s : Sys)
    (tok : JWTToken) (status : Nat)
    (hvalid : isValidJWTFormat tok.token = true)
    (hd : 0 < tok.expiresAt - s.now - cfg.refreshBuffer) :
    (refreshFinish cfg pid (FetchOutcome.resolved true status (some tok)) ws s).1.mgr.accessToken
      = some tok ∧
    (refreshFinish cfg pid (FetchOutcome.resolved true status (some tok))
      ws s).1.mgr.refreshTimeoutId ≠ none := by
  have hr : refreshOutcomeResult (FetchOutcome.resolved true status (some tok)) =
      RefreshResult.success tok := by
    unfold refreshOutcomeResult
    simp [hvalid]
  refine ⟨refreshFinish_accessToken_success cfg pid _ ws s tok hr, ?_⟩
  have hpr : (performTokenRefreshResult (FetchOutcome.resolved true status (some tok)) s).1
      = s := by
    unfold performTokenRefreshResult
    simp [isAuthStatusFailure]
  unfold refreshFinish
  simp only [performTokenRefreshResult_snd, hr, hpr]
  rw [deliverAll_mgr]
  show (scheduleTokenRefresh cfg
      { s with mgr := { s.mgr with accessToken := some tok } }).mgr.refreshTimeoutId ≠ none
  rw [(scheduleTokenRefresh_rearm cfg
    { s with mgr := { s.mgr with accessToken := some tok } } tok rfl hd).1]
  simp

/-- C4 as stated is false: a refresh fetch in flight at `destroy()` time,
resolving successfully afterwards, stores the new token and re-arms a
proactive timer — the code has no disposed flag. -/
theorem C4_counterexample :
    (step cfg0 (fun _ => none) (destroy (refreshStart cfg0 1 false (initSys 0)))
        (Action.fetchResolve 1 (FetchOutcome.resolved true 200 (some tok0)))).map
      (fun s => (s.mgr.accessToken, s.mgr.refreshTimeoutId, s.armedTimers)) =
      some (some tok0, some 2, [2]) ∧
    (destroy (refreshStart cfg0 1 false (initSys 0))).mgr.accessToken = none ∧
    (destroy (refreshStart cfg0 1 false (initSys 0))).armedTimers = [] := by
  refine ⟨?_, ?_, ?_⟩ <;> decide

/-- C4 amended: `dispose` cancels the armed timer (which can then never
fire a refresh), clears the token and the pending-refresh slot; but it
does not discard the side effects of a refresh fetch still in flight:
when that fetch later resolves successfully with a valid token and
sufficient lifetime, the continuation stores the token and re-arms a
proactive timer. -/
theorem C4_dispose_semantics (cfg : Config) (parsePayload : String → Option JWTPayload)
    (s : Sys) (h : TimerInv s) :
    ((destroy s).armedTimers = [] ∧ (destroy s).mgr.refreshTimeoutId = none ∧
     (destroy s).mgr.accessToken = none ∧ (destroy s).mgr.refreshPromise = none ∧
     (∀ id, step cfg parsePayload (destroy s) (Action.timerFire id) = none)) ∧
    (∀ (pid : Nat) (ws : List Waiter) (tok : JWTToken) (status : Nat),
      findInflight pid (destroy s).inflight = some ws →
      isValidJWTFormat tok.token = true →
      0 < tok.expiresAt - s.now - cfg.refreshBuffer →
      step cfg parsePayload (destroy s)
          (Action.fetchResolve pid (FetchOutcome.resolved true status (some tok))) =
        some (refreshComplete cfg pid (FetchOutcome.resolved true status (some tok))
          (destroy s)) ∧
      (refreshComplete cfg pid (FetchOutcome.resolved true status (some tok))
        (destroy s)).mgr.accessToken = some tok ∧
      (refreshComplete cfg pid (FetchOutcome.resolved true status (some tok))
        (destroy s)).mgr.refreshTimeoutId ≠ none) := by
  have hnil : (destroy s).armedTimers = [] := clearRefreshTimeout_armed_nil s h
  constructor
  · refine ⟨hnil, destroy_refreshTimeoutId s, rfl, rfl, ?_⟩
    intro id
    simp only [step]
    rw [if_neg (by rw [hnil]; exact List.not_mem_nil id)]
  · intro pid ws tok status hf hvalid hd
    have hd2 : 0 < tok.expiresAt -
        (({ destroy s with inflight :=
          (destroy s).inflight.filter (fun e => e.1 ≠ pid) } : Sys)).now - cfg.refreshBuffer := by
      simpa using hd
    refine ⟨by simp only [step, hf], ?_, ?_⟩
    · unfold refreshComplete
      rw [hf]
      exact (refreshFinish_rearm_success cfg pid ws _ tok status hvalid hd2).1
    · unfold refreshComplete
      rw [hf]
      exact (refreshFinish_rearm_success cfg pid ws _ tok status hvalid hd2).2

/-- Witness for the amended C4: destroy while one refresh fetch is in
flight; the timer cannot fire, yet the resolving fetch resurrects the
token and a timer. -/
theorem C4_dispose_semantics_witness :
    TimerInv (refreshStart cfg0 1 false (initSys 0)) ∧
    (destroy (refreshStart cfg0 1 false (initSys 0))).armedTimers = [] ∧
    (∀ id, step cfg0 (fun _ => none) (destroy (refreshStart cfg0 1 false (initSys 0)))
      (Action.timerFire id) = none) ∧
    findInflight 1 (destroy (refreshStart cfg0 1 false (initSys 0))).inflight =
      some [⟨1, false⟩] ∧
    (refreshComplete cfg0 1 (FetchOutcome.resolved true 200 (some tok0))
      (destroy (refreshStart cfg0 1 false (initSys 0)))).mgr.accessToken = some tok0 ∧
    (refreshComplete cfg0 1 (FetchOutcome.resolved true 200 (some tok0))
      (destroy (refreshStart cfg0 1 false (initSys 0)))).mgr.refreshTimeoutId ≠ none := by
  have hinv : TimerInv (refreshStart cfg0 1 false (initSys 0)) :=
    ⟨Or.inl rfl, fun id hid => by cases hid⟩
  have hmain := C4_dispose_semantics cfg0 (fun _ => none)
    (refreshStart cfg0 1 false (initSys 0)) hinv
  refine ⟨hinv, hmain.1.1, hmain.1.2.2.2.2, rfl, ?_, ?_⟩
  · exact (hmain.2 1 [⟨1, false⟩] tok0 200 rfl (by decide) (by decide)).2.1
  · exact (hmain.2 1 [⟨1, false⟩] tok0 200 rfl (by decide) (by decide)).2.2

end JWTRefresh
